import Mathlib

/-!
# FreeCameraControllerSystem (source/common/systems/free-camera-controller.hpp)

A shallow embedding of `our::FreeCameraControllerSystem::update` and of the
interfaces it consumes.

Conventions of the embedding.

* Scalars (`float`, `double`) are exact rationals: arithmetic never rounds and
  there is no NaN or infinity.  Decimal literals are taken at their decimal
  value (`0.99f` is `99/100`).
* The yaw wrap is the one place where rounding decides what is stored, so the
  data flow of `rotation.y` is embedded a second time, as `yawPath`, with the
  result of every floating-point operation passed through a rounding
  (`fp.Rounding`): `fp.exact` gives back the exact embedding, `fp.ieee` is
  `float` and `double` arithmetic.
* An `Entity*` is the `id` of the entity it points to; a null pointer is
  `none`.  World entities have pairwise distinct ids (`World.Distinct`).
* Writing through a pointer or reference is `World.modify`; dereferencing a
  null pointer is `Fault.nullDeref`.
* Calls on collaborators that change something outside the world (cursor
  lock / unlock) and the removal requests are recorded in `Outcome.effects`,
  in call order.  Console output (`std::cout`) is not recorded.
-/

namespace fp

/-- Rounding to nearest, ties to even, onto the binary floating-point numbers
with a significand of `p` bits.  The exponent range is not bounded: there is no
overflow and there are no subnormal numbers. -/
def roundTo (p : ℤ) (q : ℚ) : ℚ :=
  if q = 0 then 0
  else
    let ulp : ℚ := 2 ^ (Int.log 2 |q| - (p - 1))
    let m : ℚ := q / ulp
    let f : ℤ := ⌊m⌋
    let n : ℤ :=
      if m - f < 1 / 2 then f
      else if 1 / 2 < m - f then f + 1
      else if f % 2 = 0 then f else f + 1
    n * ulp

/-- How the result of a floating-point operation is rounded: `single` for an
operation on `float`, `double` for one on `double`. -/
structure Rounding where
  single : ℚ → ℚ
  double : ℚ → ℚ

/-- No rounding: the arithmetic of the exact embedding. -/
def exact : Rounding := ⟨fun q => q, fun q => q⟩

/-- IEEE 754 binary32 and binary64 arithmetic, round to nearest even. -/
def ieee : Rounding := ⟨roundTo 24, roundTo 53⟩

end fp

namespace glm

/-- The value returned by `glm::pi<float>()`: the single precision number
`0x40490FDB`, which is exactly `13176795 / 2^22`. -/
def pi : ℚ := 13176795 / 4194304

/-- The value of `glm::half_pi<float>()`. -/
def half_pi : ℚ := pi / 2

/-- The value of `glm::two_pi<float>()`. -/
def two_pi : ℚ := 2 * pi

/-- Modelled from the spec: `glm::clamp` (GLM, not under src/), "clamp" of a
value to a closed range, `min(max(x, minVal), maxVal)`. -/
def clamp (x minVal maxVal : ℚ) : ℚ := min (max x minVal) maxVal

/-- Modelled from the spec: `glm::mod` (GLM, not under src/),
`x - y * floor(x / y)`. -/
def mod (x y : ℚ) : ℚ := x - y * (⌊x / y⌋ : ℤ)

/-- Modelled from the spec: `glm::wrapAngle` (GLM gtx/fast_trigonometry, not
under src/), the "wrap-around" of an angle into the range from 0 to 2*pi:
`abs(mod(angle, two_pi))`.  This is the function in exact arithmetic, whose
result is below 2*pi; `wrapAngleR` is the function with its operations
rounded, whose result can be 2*pi itself. -/
def wrapAngle (angle : ℚ) : ℚ := |mod angle two_pi|

/-- Modelled from the spec: `glm::mod` on `float`, that is `glm.mod` with the
result of each of its three operations rounded: the division, the product with
the floor (itself exact) and the subtraction. -/
def modR (r : fp.Rounding) (x y : ℚ) : ℚ :=
  r.single (x - r.single (y * (⌊r.single (x / y)⌋ : ℤ)))

/-- Modelled from the spec: `glm::wrapAngle` on `float`, that is
`abs(mod(angle, two_pi))` with the operations of `mod` rounded (`abs` is
exact). -/
def wrapAngleR (r : fp.Rounding) (angle : ℚ) : ℚ := |modR r angle two_pi|

end glm

namespace our

/-- A `glm::vec2`. -/
structure Vec2 where
  x : ℚ
  y : ℚ
deriving DecidableEq

/-- A `glm::vec3`. -/
@[ext]
structure Vec3 where
  x : ℚ
  y : ℚ
  z : ℚ
deriving DecidableEq

/-- A `glm::vec4`. -/
structure Vec4 where
  x : ℚ
  y : ℚ
  z : ℚ
  w : ℚ
deriving DecidableEq

/-- A `glm::mat4`, stored by columns as GLM does. -/
structure Mat4 where
  c0 : Vec4
  c1 : Vec4
  c2 : Vec4
  c3 : Vec4
deriving DecidableEq

/-- The `vec3 + vec3` of GLM. -/
def Vec3.add (a b : Vec3) : Vec3 := ⟨a.x + b.x, a.y + b.y, a.z + b.z⟩

/-- The `vec3 - vec3` of GLM. -/
def Vec3.sub (a b : Vec3) : Vec3 := ⟨a.x - b.x, a.y - b.y, a.z - b.z⟩

/-- The `vec3 * scalar` of GLM. -/
def Vec3.scale (a : Vec3) (s : ℚ) : Vec3 := ⟨a.x * s, a.y * s, a.z * s⟩

/-- The `vec3 * vec3` of GLM (component-wise). -/
def Vec3.mul (a b : Vec3) : Vec3 := ⟨a.x * b.x, a.y * b.y, a.z * b.z⟩

/-- The `glm::vec3(vec4)` conversion: drops the last component. -/
def Vec4.xyz (v : Vec4) : Vec3 := ⟨v.x, v.y, v.z⟩

/-- The `vec4 * scalar` of GLM. -/
def Vec4.scale (a : Vec4) (s : ℚ) : Vec4 := ⟨a.x * s, a.y * s, a.z * s, a.w * s⟩

/-- The `vec4 + vec4` of GLM. -/
def Vec4.add (a b : Vec4) : Vec4 := ⟨a.x + b.x, a.y + b.y, a.z + b.z, a.w + b.w⟩

/-- The `mat4 * vec4` of GLM: the linear combination of the columns. -/
def Mat4.mulVec (m : Mat4) (v : Vec4) : Vec4 :=
  (((m.c0.scale v.x).add (m.c1.scale v.y)).add (m.c2.scale v.z)).add (m.c3.scale v.w)

/-- Modelled from the spec: the `Transform` type (declared in ecs/transform.hpp,
not under src/): "a local transform (position: vec3, rotation: vec3 as
pitch/yaw/roll euler angles, scale)". -/
structure Transform where
  position : Vec3
  rotation : Vec3
  scale : Vec3
deriving DecidableEq

/-- Modelled from the spec: the `CameraComponent` type (not under src/):
"vertical field-of-view angle (radians)". -/
structure CameraComponent where
  fovY : ℚ
deriving DecidableEq

/-- Modelled from the spec: the `FreeCameraControllerComponent` type (not under
src/): "rotation sensitivity (scalar), per-axis position sensitivity (vec3),
field-of-view sensitivity (scalar), speed-up multiplier". -/
structure FreeCameraControllerComponent where
  rotationSensitivity : ℚ
  fovSensitivity : ℚ
  positionSensitivity : Vec3
  speedupFactor : ℚ
deriving DecidableEq

/-- Modelled from the spec: the `Mesh` type (not under src/): "a scalar carried
by a renderable capability, used only as an approximate collision sphere".
The field keeps the spelling of the source. -/
structure Mesh where
  raduis : ℚ
deriving DecidableEq

/-- Modelled from the spec: the `MeshRendererComponent` type (not under src/);
`mesh` is a `Mesh*`, `none` when null. -/
structure MeshRendererComponent where
  mesh : Option Mesh
deriving DecidableEq

/-- Modelled from the spec: the `Entity` type (not under src/): a local
transform, optional capabilities and "a free-text classification tag".
`id` stands for the address of the entity; each `getComponent<T>()` is the
corresponding optional field. -/
structure Entity where
  id : Nat
  materialName : String
  localTransform : Transform
  camera : Option CameraComponent
  controller : Option FreeCameraControllerComponent
  meshRenderer : Option MeshRendererComponent
deriving DecidableEq

/-- Modelled from the spec: the `World` type (not under src/): the live
entities, in the order in which `getEntities()` enumerates them, and the
entities marked for removal. -/
structure World where
  entities : List Entity
  markedForRemoval : List Nat
deriving DecidableEq

/-- The ids of the live entities. -/
def World.ids (w : World) : List Nat := w.entities.map Entity.id

/-- Distinct entities have distinct addresses. -/
def World.Distinct (w : World) : Prop := w.ids.Nodup

/-- Modelled from the spec: `World::markForRemoval` (not under src/): "mark
entity X for removal (idempotent)". -/
def World.markForRemoval (w : World) (e : Nat) : World :=
  if e ∈ w.markedForRemoval then w
  else { w with markedForRemoval := e :: w.markedForRemoval }

/-- Modelled from the spec: `World::deleteMarkedEntities` (not under src/):
"commit all marked removals" in one batch; afterwards nothing is marked. -/
def World.deleteMarkedEntities (w : World) : World :=
  { entities := w.entities.filter (fun e => decide (e.id ∉ w.markedForRemoval)),
    markedForRemoval := [] }

/-- The entity an `Entity*` points to. -/
def World.get (w : World) (e : Nat) : Option Entity :=
  w.entities.find? (fun x => decide (x.id = e))

/-- A write through an `Entity*`: the entity at that address becomes `f` of
itself. -/
def World.modify (w : World) (e : Nat) (f : Entity → Entity) : World :=
  { w with entities := w.entities.map (fun x => if x.id = e then f x else x) }

/-- The keys `update` queries. -/
inductive Key where
  | LEFT_SHIFT
  | W
  | S
  | Q
  | E
  | D
  | A
  | LEFT
  | RIGHT
deriving DecidableEq

/-- Modelled from the spec: the `Mouse` collaborator (not under src/) as seen
during one frame: "button-press-state query", "2D mouse-motion-delta", "2D
scroll-delta".  `button1` is `isPressed(GLFW_MOUSE_BUTTON_1)`. -/
structure Mouse where
  button1 : Bool
  mouseDelta : Vec2
  scrollOffset : Vec2

/-- Modelled from the spec: the `Application` collaborator (not under src/) as
seen during one frame; `keyboard k` is `getKeyboard().isPressed(k)`. -/
structure Application where
  mouse : Mouse
  keyboard : Key → Bool

/-- Library and engine functions that `update` calls and that have no rational
counterpart: `Transform::toMat4` (built from sines and cosines of the euler
angles; not under src/) and `sqrt`. -/
structure Numerics where
  toMat4 : Transform → Mat4
  sqrt : ℚ → ℚ

/-- What `update` asks of its collaborators. -/
inductive Effect where
  | lockMouse
  | unlockMouse
  | markForRemoval (e : Nat)
  | deleteMarkedEntities
deriving DecidableEq

/-- The ways `update` can go wrong. -/
inductive Fault where
  | nullDeref
deriving DecidableEq

/-- The data members of `FreeCameraControllerSystem` that `update` changes
(`app` is passed to `update` instead). -/
structure FreeCameraControllerSystem where
  mouse_locked : Bool
deriving DecidableEq

/-- The state after a call of `update` that returned. -/
structure Outcome where
  system : FreeCameraControllerSystem
  world : World
  effects : List Effect
deriving DecidableEq

/-- A write to `localTransform.rotation`. -/
def Entity.mapRotation (f : Vec3 → Vec3) (e : Entity) : Entity :=
  { e with localTransform := { e.localTransform with rotation := f e.localTransform.rotation } }

/-- A write to `localTransform.position`. -/
def Entity.mapPosition (f : Vec3 → Vec3) (e : Entity) : Entity :=
  { e with localTransform := { e.localTransform with position := f e.localTransform.position } }

/-- A write to the entity's `CameraComponent`. -/
def Entity.mapCamera (f : CameraComponent → CameraComponent) (e : Entity) : Entity :=
  { e with camera := e.camera.map f }

/-- A read through an `Entity*` that is known not to be null. -/
def World.deref (w : World) (e : Nat) : Except Fault Entity :=
  match w.get e with
  | some x => .ok x
  | none => .error .nullDeref

/-- A read through a `FreeCameraControllerComponent*`, which is the address of
the entity that owns the component. -/
def World.controllerAt (w : World) (e : Nat) : Except Fault FreeCameraControllerComponent :=
  match (w.get e).bind Entity.controller with
  | some c => .ok c
  | none => .error .nullDeref

/-- A write through a reference bound from `player` (lines 68-69 bind
`positionPlayer` without accessing it; the access happens at the write). -/
def World.modifyPlayer (w : World) (player : Option Nat) (f : Entity → Entity) :
    Except Fault World :=
  match player with
  | some p => .ok (w.modify p f)
  | none => .error .nullDeref

/-- Lines 34-40: the search for an entity with both components.  The pair is
`(camera, controller)`, each the owner of the component found on the entity
examined last, or `none`; `break` stops the loop. -/
def searchCamera : List Entity → Option Nat × Option Nat → Option Nat × Option Nat
  | [], found => found
  | entity :: rest, _ =>
    let camera := entity.camera.map (fun _ => entity.id)
    let controller := entity.controller.map (fun _ => entity.id)
    if camera.isSome && controller.isSome then (camera, controller)
    else searchCamera rest (camera, controller)

/-- Lines 46-53: the cursor lock toggle.  Returns the new `mouse_locked` and the
calls made on the mouse. -/
def toggleMouse (app : Application) (mouse_locked : Bool) : Bool × List Effect :=
  if app.mouse.button1 && !mouse_locked then (true, [Effect.lockMouse])
  else if !app.mouse.button1 && mouse_locked then (false, [Effect.unlockMouse])
  else (mouse_locked, [])

/-- Lines 56-62: the first entity whose `materialName` is "player", or null. -/
def findPlayer : List Entity → Option Nat
  | [] => none
  | detected :: rest =>
    if detected.materialName = "player" then some detected.id else findPlayer rest

/-- Lines 73-84: mouse look, pitch clamp and yaw wrap, on `rotation`. -/
def mouseLook (app : Application) (controller : FreeCameraControllerComponent)
    (rotation : Vec3) : Vec3 :=
  let rotation :=
    if app.mouse.button1 then
      { rotation with
        x := rotation.x - app.mouse.mouseDelta.y * controller.rotationSensitivity,
        y := rotation.y - app.mouse.mouseDelta.x * controller.rotationSensitivity }
    else rotation
  let rotation :=
    if rotation.x < -glm.half_pi * (99 / 100) then
      { rotation with x := -glm.half_pi * (99 / 100) }
    else rotation
  let rotation :=
    if rotation.x > glm.half_pi * (99 / 100) then
      { rotation with x := glm.half_pi * (99 / 100) }
    else rotation
  { rotation with y := glm.wrapAngle rotation.y }

/-- Lines 87-89: the field of view update, on the camera component. -/
def zoom (app : Application) (controller : FreeCameraControllerComponent)
    (camera : CameraComponent) : CameraComponent :=
  let fov := camera.fovY + app.mouse.scrollOffset.y * controller.fovSensitivity
  let fov := glm.clamp fov (glm.pi * (1 / 100)) (glm.pi * (99 / 100))
  { camera with fovY := fov }

/-- Lines 73-89 as a change of the world: `rotation` is a reference into the
entity that owns the camera, `camera` points into the same entity. -/
def orient (app : Application) (controller : FreeCameraControllerComponent)
    (entity camera : Nat) (world : World) : World :=
  (world.modify entity (Entity.mapRotation (mouseLook app controller))).modify camera
    (Entity.mapCamera (zoom app controller))

/-- Lines 98-100: the position sensitivity, sped up while LEFT SHIFT is held. -/
def currentSensitivity (app : Application) (controller : FreeCameraControllerComponent) :
    Vec3 :=
  if app.keyboard Key.LEFT_SHIFT then
    controller.positionSensitivity.scale controller.speedupFactor
  else controller.positionSensitivity

/-- The body of the W, S, D and A blocks: the same change of `position` and of
`positionPlayer`. -/
def moveBoth (world : World) (entity : Nat) (player : Option Nat) (f : Vec3 → Vec3) :
    Except Fault World :=
  (world.modify entity (Entity.mapPosition f)).modifyPlayer player (Entity.mapPosition f)

/-- Lines 104-127: the keys W, S, Q, E, D, A. -/
def translate (app : Application) (entity : Nat) (player : Option Nat) (deltaTime : ℚ)
    (current_sensitivity front up right : Vec3) (world : World) : Except Fault World := do
  let world ←
    (if app.keyboard Key.W then
      moveBoth world entity player (fun p => p.add (front.scale (deltaTime * current_sensitivity.z)))
    else pure world)
  let world ←
    (if app.keyboard Key.S then
      moveBoth world entity player (fun p => p.sub (front.scale (deltaTime * current_sensitivity.z)))
    else pure world)
  let world :=
    if app.keyboard Key.Q then
      world.modify entity
        (Entity.mapPosition (fun p => p.add (up.scale (deltaTime * current_sensitivity.y))))
    else world
  let world :=
    if app.keyboard Key.E then
      world.modify entity
        (Entity.mapPosition (fun p => p.sub (up.scale (deltaTime * current_sensitivity.y))))
    else world
  let world ←
    (if app.keyboard Key.D then
      moveBoth world entity player (fun p => p.add (right.scale (deltaTime * current_sensitivity.x)))
    else pure world)
  (if app.keyboard Key.A then
    moveBoth world entity player (fun p => p.sub (right.scale (deltaTime * current_sensitivity.x)))
  else pure world)

/-- Lines 132-134: the yaw step of the LEFT block, on `rotation`. -/
def leftYaw (rotation : Vec3) : Vec3 :=
  let rotation :=
    if rotation.y = 0 then { rotation with y := glm.half_pi / 90 }
    else { rotation with y := rotation.y + glm.half_pi / 90 }
  { rotation with y := glm.wrapAngle rotation.y }

/-- Lines 139-141: the yaw step of the RIGHT block, on `rotation`. -/
def rightYaw (rotation : Vec3) : Vec3 :=
  let rotation :=
    if rotation.y = 0 then { rotation with y := -glm.half_pi / 90 }
    else { rotation with y := rotation.y - glm.half_pi / 90 }
  { rotation with y := glm.wrapAngle rotation.y }

/-- Lines 131-134: the body of the LEFT block, on the camera entity. -/
def arrowLeft (front : Vec3) (e : Entity) : Entity :=
  (e.mapPosition (fun p => p.add (front.mul ⟨1 / 5, 1 / 5, 1 / 5⟩))).mapRotation leftYaw

/-- Lines 138-141: the body of the RIGHT block, on the camera entity. -/
def arrowRight (front : Vec3) (e : Entity) : Entity :=
  (e.mapPosition (fun p => p.add (front.mul ⟨1 / 5, 1 / 5, 1 / 5⟩))).mapRotation rightYaw

/-- Lines 129-142: the keys LEFT and RIGHT. -/
def arrows (app : Application) (entity : Nat) (front : Vec3) (world : World) : World :=
  let world := if app.keyboard Key.LEFT then world.modify entity (arrowLeft front) else world
  if app.keyboard Key.RIGHT then world.modify entity (arrowRight front) else world

/-- Lines 73-142: everything `update` does to transforms and field of view. -/
def navigate (lib : Numerics) (app : Application) (controller : FreeCameraControllerComponent)
    (entity camera : Nat) (player : Option Nat) (deltaTime : ℚ) (world : World) :
    Except Fault World := do
  let world := orient app controller entity camera world
  let ent ← world.deref entity
  let matrix := lib.toMat4 ent.localTransform
  let front := (matrix.mulVec ⟨0, 0, -1, 0⟩).xyz
  let up := (matrix.mulVec ⟨0, 1, 0, 0⟩).xyz
  let right := (matrix.mulVec ⟨1, 0, 0, 0⟩).xyz
  let world ← translate app entity player deltaTime (currentSensitivity app controller)
    front up right world
  pure (arrows app entity front world)

/-- Lines 159-165: the distance between two positions. -/
def distance (lib : Numerics) (a b : Vec3) : ℚ :=
  let dx := a.x - b.x
  let dy := a.y - b.y
  let dz := a.z - b.z
  lib.sqrt (dx * dx + dy * dy + dz * dz)

/-- The `raduis` of the mesh of an entity, read as
`getComponent<MeshRendererComponent>()->mesh->raduis`. -/
def Entity.raduis (e : Entity) : Except Fault ℚ :=
  match e.meshRenderer with
  | none => .error .nullDeref
  | some renderer =>
    match renderer.mesh with
    | none => .error .nullDeref
    | some mesh => .ok mesh.raduis

/-- Lines 159-174: the proximity test between the player and `detected`.  Every
null pointer on the way to a `raduis` gives the same fault, so the order in
which the four pointers are followed does not show in the result. -/
def proximity (lib : Numerics) (player detected : Entity) : Except Fault Bool := do
  let distance := distance lib player.localTransform.position detected.localTransform.position
  let radiusx ← player.raduis
  let raduisy ← detected.raduis
  pure (decide (distance ≤ radiusx + raduisy))

/-- Lines 147-183: the scan of the entities.  Entity data does not change
during the scan, so the player is read once.  Returns the world with the
marks added and the removal requests in call order. -/
def scan (lib : Numerics) (player : Entity) : List Entity → World →
    Except Fault (World × List Effect)
  | [], world => pure (world, [])
  | detected :: rest, world =>
    if detected.materialName = "battery" then do
      let hit ← proximity lib player detected
      if hit then do
        let (world, requests) ← scan lib player rest (world.markForRemoval detected.id)
        pure (world, Effect.markForRemoval detected.id :: requests)
      else scan lib player rest world
    else scan lib player rest world

/-- Lines 146-183: the collection pass, guarded by `player != NULL`. -/
def collect (lib : Numerics) (player : Option Nat) (world : World) :
    Except Fault (World × List Effect) :=
  match player with
  | none => pure (world, [])
  | some p => do
    let playerEntity ← world.deref p
    scan lib playerEntity world.entities world

/-- The function `FreeCameraControllerSystem::update` (lines 31-185).
`controllerData` holds the fields read through `controller`; `update` never
writes them, so they are read once. -/
def update (lib : Numerics) (app : Application) (self : FreeCameraControllerSystem)
    (world : World) (deltaTime : ℚ) : Except Fault Outcome :=
  match searchCamera world.entities (none, none) with
  | (some camera, some controller) => do
    let entity := camera
    let (mouse_locked, toggled) := toggleMouse app self.mouse_locked
    let player := findPlayer world.entities
    let controllerData ← world.controllerAt controller
    let world ← navigate lib app controllerData entity camera player deltaTime world
    let (world, requests) ← collect lib player world
    pure { system := { mouse_locked := mouse_locked },
           world := world.deleteMarkedEntities,
           effects := toggled ++ requests ++ [Effect.deleteMarkedEntities] }
  | _ => pure { system := self, world := world, effects := [] }

/-- The function `FreeCameraControllerSystem::exit` (lines 188-193). -/
def exit (self : FreeCameraControllerSystem) : FreeCameraControllerSystem × List Effect :=
  if self.mouse_locked then ({ mouse_locked := false }, [Effect.unlockMouse]) else (self, [])

/-- Consecutive frames: `update` is called once for each frame, on the system
and world the previous call left. -/
def run (lib : Numerics) : FreeCameraControllerSystem → World → List (Application × ℚ) →
    Except Fault (List Outcome)
  | _, _, [] => pure []
  | self, world, (app, deltaTime) :: rest => do
    let out ← update lib app self world deltaTime
    let outs ← run lib out.system out.world rest
    pure (out :: outs)

/-- What `orient` does to one entity of the world. -/
def orientEntity (app : Application) (controller : FreeCameraControllerComponent)
    (entity camera : Nat) (x : Entity) : Entity :=
  let x := if x.id = entity then x.mapRotation (mouseLook app controller) else x
  if x.id = camera then x.mapCamera (zoom app controller) else x

/-- What `arrows` does to one entity of the world. -/
def arrowsEntity (app : Application) (entity : Nat) (front : Vec3) (x : Entity) : Entity :=
  let x := if app.keyboard Key.LEFT then (if x.id = entity then arrowLeft front x else x) else x
  if app.keyboard Key.RIGHT then (if x.id = entity then arrowRight front x else x) else x

/-- The scan requests the removal of `detected`: it is tagged "battery" and
the proximity test of lines 159-174 succeeds. -/
def collides (lib : Numerics) (player detected : Entity) : Bool :=
  decide (detected.materialName = "battery") &&
    (match proximity lib player detected with
     | .ok hit => hit
     | .error _ => false)

/-- The world `w'` is `w` with some positions changed and nothing else. -/
def Shift (w w' : World) : Prop :=
  ∃ G : Entity → Entity,
    w' = { entities := w.entities.map G, markedForRemoval := w.markedForRemoval } ∧
    ∀ x, ∃ g, G x = x.mapPosition g

/-- The yaw the inputs of one frame ask for, before any wrap: the mouse drag
while the button is held, then the LEFT increment and the RIGHT decrement. -/
def requestedYaw (app : Application) (controller : FreeCameraControllerComponent) (yaw : ℚ) :
    ℚ :=
  (if app.mouse.button1 then yaw - app.mouse.mouseDelta.x * controller.rotationSensitivity
    else yaw) +
    (if app.keyboard Key.LEFT then glm.half_pi / 90 else 0) -
    (if app.keyboard Key.RIGHT then glm.half_pi / 90 else 0)

/-- Sample numerics: the identity for `toMat4`, and a `sqrt` that is exact on
squares of rationals. -/
def sampleNumerics : Numerics :=
  { toMat4 := fun _ => ⟨⟨1, 0, 0, 0⟩, ⟨0, 1, 0, 0⟩, ⟨0, 0, 1, 0⟩, ⟨0, 0, 0, 1⟩⟩,
    sqrt := Rat.sqrt }

/-- Sample controller settings. -/
def sampleController : FreeCameraControllerComponent :=
  { rotationSensitivity := 1 / 100, fovSensitivity := 1 / 10,
    positionSensitivity := ⟨3, 3, 3⟩, speedupFactor := 5 }

/-- Sample entity with a camera and a controller, at (0, 0, 5). -/
def sampleCamera : Entity :=
  { id := 0, materialName := "camera",
    localTransform := ⟨⟨0, 0, 5⟩, ⟨0, 0, 0⟩, ⟨1, 1, 1⟩⟩,
    camera := some ⟨1⟩, controller := some sampleController, meshRenderer := none }

/-- Sample player: at the origin, mesh radius 1. -/
def samplePlayer : Entity :=
  { id := 1, materialName := "player",
    localTransform := ⟨⟨0, 0, 0⟩, ⟨0, 0, 0⟩, ⟨1, 1, 1⟩⟩,
    camera := none, controller := none, meshRenderer := some ⟨some ⟨1⟩⟩ }

/-- Sample collectible: at (x, 0, 0), mesh radius 0.4. -/
def sampleBattery (id : Nat) (x : ℚ) : Entity :=
  { id := id, materialName := "battery",
    localTransform := ⟨⟨x, 0, 0⟩, ⟨0, 0, 0⟩, ⟨1, 1, 1⟩⟩,
    camera := none, controller := none, meshRenderer := some ⟨some ⟨2 / 5⟩⟩ }

/-- Sample inputs: the mouse button state, the mouse and scroll deltas and the
keys held. -/
def sampleApp (button1 : Bool) (mouseDelta scrollOffset : Vec2) (held : List Key) :
    Application :=
  { mouse := ⟨button1, mouseDelta, scrollOffset⟩, keyboard := fun k => decide (k ∈ held) }

/-- Sample world: camera, player, a battery at distance 1.5 and one at 1.3. -/
def sampleWorld : World :=
  { entities := [sampleCamera, samplePlayer, sampleBattery 2 (3 / 2), sampleBattery 3 (13 / 10)],
    markedForRemoval := [] }

/-- Sample world in which the camera and the controller sit on different
entities. -/
def splitWorld : World :=
  { entities := [{ sampleCamera with controller := none },
      { sampleCamera with id := 4, camera := none }, samplePlayer, sampleBattery 3 (13 / 10)],
    markedForRemoval := [] }

/-- Sample world without a player. -/
def lonelyWorld : World :=
  { entities := [sampleCamera, sampleBattery 2 (3 / 2)], markedForRemoval := [] }

/-- What `navigate` does to one entity of the world, given the `front` vector
read at line 94 and the effect `T` of the keys W, S, Q, E, D, A on it. -/
def navigateEntity (app : Application) (controller : FreeCameraControllerComponent)
    (camera : Nat) (front : Vec3) (T : Entity → Entity) (x : Entity) : Entity :=
  arrowsEntity app camera front (T (orientEntity app controller camera camera x))

/-- Sample world whose camera entity starts with the given yaw. -/
def yawWorld (yaw : ℚ) : World :=
  { entities :=
      [{ sampleCamera with localTransform := ⟨⟨0, 0, 5⟩, ⟨0, yaw, 0⟩, ⟨1, 1, 1⟩⟩ },
        samplePlayer],
    markedForRemoval := [] }

/-- The yaw stored in the entity at address `e`, if it is live. -/
def World.yawOf (w : World) (e : Nat) : Option ℚ :=
  (w.get e).map (fun x => x.localTransform.rotation.y)

/-- Sample inputs with nothing pressed and no mouse motion. -/
def idleApp : Application := sampleApp false ⟨0, 0⟩ ⟨0, 0⟩ []

/-- Sample world with two batteries within reach of the player (distance 1.3
and 1.2) and one out of reach (distance 1.5). -/
def twinWorld : World :=
  { entities := [sampleCamera, samplePlayer, sampleBattery 2 (13 / 10),
      sampleBattery 3 (6 / 5), sampleBattery 4 (3 / 2)],
    markedForRemoval := [] }

/-- What the body of a W, S, D or A block does to one entity of the world when
the player is the entity at address `p`. -/
def bothEntity (entity p : Nat) (f : Vec3 → Vec3) (x : Entity) : Entity :=
  let x := if x.id = entity then x.mapPosition f else x
  if x.id = p then x.mapPosition f else x

/-- What `translate` does to one entity of the world when the player is the
entity at address `p`. -/
def translateEntity (app : Application) (entity p : Nat) (deltaTime : ℚ)
    (current_sensitivity front up right : Vec3) (x : Entity) : Entity :=
  let x :=
    if app.keyboard Key.W then
      bothEntity entity p (fun v => v.add (front.scale (deltaTime * current_sensitivity.z))) x
    else x
  let x :=
    if app.keyboard Key.S then
      bothEntity entity p (fun v => v.sub (front.scale (deltaTime * current_sensitivity.z))) x
    else x
  let x :=
    if app.keyboard Key.Q then
      (if x.id = entity then
        x.mapPosition (fun v => v.add (up.scale (deltaTime * current_sensitivity.y))) else x)
    else x
  let x :=
    if app.keyboard Key.E then
      (if x.id = entity then
        x.mapPosition (fun v => v.sub (up.scale (deltaTime * current_sensitivity.y))) else x)
    else x
  let x :=
    if app.keyboard Key.D then
      bothEntity entity p (fun v => v.add (right.scale (deltaTime * current_sensitivity.x))) x
    else x
  if app.keyboard Key.A then
    bothEntity entity p (fun v => v.sub (right.scale (deltaTime * current_sensitivity.x))) x
  else x

/-- The effect of the W, S, D and A blocks on a position. -/
def wasd (app : Application) (deltaTime : ℚ) (current_sensitivity front right : Vec3)
    (v : Vec3) : Vec3 :=
  let v :=
    if app.keyboard Key.W then v.add (front.scale (deltaTime * current_sensitivity.z)) else v
  let v :=
    if app.keyboard Key.S then v.sub (front.scale (deltaTime * current_sensitivity.z)) else v
  let v :=
    if app.keyboard Key.D then v.add (right.scale (deltaTime * current_sensitivity.x)) else v
  if app.keyboard Key.A then v.sub (right.scale (deltaTime * current_sensitivity.x)) else v

/-- A world on which `update` cannot fault: distinct addresses, nothing marked,
a player at address `p`, and a mesh on the player and on every battery. -/
def Ready (w : World) (p : Nat) : Prop :=
  w.Distinct ∧ w.markedForRemoval = [] ∧ findPlayer w.entities = some p ∧
    ∀ e ∈ w.entities, (e.materialName = "battery" ∨ e.id = p) → ∃ r, e.raduis = .ok r

/-- Sample inputs: button held, mouse dragged by (10, 1000), wheel scrolled by
1000, LEFT held. -/
def dragApp : Application := sampleApp true ⟨10, 1000⟩ ⟨0, 1000⟩ [Key.LEFT]

/-- What `update` returns on `sampleWorld` with the inputs `dragApp`. -/
def dragOutcome : Outcome :=
  { system := ⟨true⟩,
    world :=
      ⟨[{ sampleCamera with
            localTransform := ⟨⟨0, 0, 24 / 5⟩,
              ⟨-(99 / 100 * (glm.pi / 2)), 2 * glm.pi - 1 / 10 + glm.half_pi / 90, 0⟩,
              ⟨1, 1, 1⟩⟩,
            camera := some ⟨99 / 100 * glm.pi⟩ },
        samplePlayer, sampleBattery 2 (3 / 2)], []⟩,
    effects := [Effect.lockMouse, Effect.markForRemoval 3, Effect.deleteMarkedEntities] }

/-- The data flow of `rotation.y` through `update` (lines 76, 84, 132-134 and
139-141), with the result of every floating-point operation rounded by `r`.
`rotation.y`, the mouse delta and `rotationSensitivity` are `float`, so line 76
is a `float` product and a `float` subtraction.  `glm::half_pi<float>() / 90.0`
divides by a `double` literal, so it is a `double` division; the `+=` and `-=`
of lines 133 and 140 are a `double` operation whose result is converted to
`float` by the assignment, as is the quotient assigned at lines 132 and 139. -/
def yawPath (r : fp.Rounding) (app : Application) (controller : FreeCameraControllerComponent)
    (yaw : ℚ) : ℚ :=
  let yaw :=
    if app.mouse.button1 then
      r.single (yaw - r.single (app.mouse.mouseDelta.x * controller.rotationSensitivity))
    else yaw
  let yaw := glm.wrapAngleR r yaw
  let yaw :=
    if app.keyboard Key.LEFT then
      glm.wrapAngleR r
        (if yaw = 0 then r.single (r.double (glm.half_pi / 90))
          else r.single (r.double (yaw + r.double (glm.half_pi / 90))))
    else yaw
  if app.keyboard Key.RIGHT then
    glm.wrapAngleR r
      (if yaw = 0 then r.single (r.double (-glm.half_pi / 90))
        else r.single (r.double (yaw - r.double (glm.half_pi / 90))))
  else yaw

/-- Sample inputs: mouse idle, LEFT and RIGHT both held. -/
def bothArrowsApp : Application := sampleApp false ⟨0, 0⟩ ⟨0, 0⟩ [Key.LEFT, Key.RIGHT]

end our

namespace glm

theorem pi_pos : 0 < pi := by norm_num [pi]

theorem two_pi_pos : 0 < two_pi := by norm_num [two_pi, pi]

theorem mod_nonneg (x : ℚ) {y : ℚ} (hy : 0 < y) : 0 ≤ mod x y := by
  unfold mod
  have h := Int.floor_le (x / y)
  have h2 : y * (⌊x / y⌋ : ℚ) ≤ y * (x / y) := mul_le_mul_of_nonneg_left h hy.le
  rw [mul_div_cancel₀ x hy.ne'] at h2
  linarith

theorem mod_lt (x : ℚ) {y : ℚ} (hy : 0 < y) : mod x y < y := by
  unfold mod
  have h := Int.lt_floor_add_one (x / y)
  have h2 : y * (x / y) < y * ((⌊x / y⌋ : ℚ) + 1) := mul_lt_mul_of_pos_left h hy
  rw [mul_div_cancel₀ x hy.ne'] at h2
  linarith

theorem wrapAngle_eq (a : ℚ) : wrapAngle a = a - two_pi * (⌊a / two_pi⌋ : ℤ) := by
  unfold wrapAngle
  rw [abs_of_nonneg (mod_nonneg a two_pi_pos)]
  rfl

theorem wrapAngle_nonneg (a : ℚ) : 0 ≤ wrapAngle a := abs_nonneg _

theorem wrapAngle_lt (a : ℚ) : wrapAngle a < two_pi := by
  unfold wrapAngle
  rw [abs_of_nonneg (mod_nonneg a two_pi_pos)]
  exact mod_lt a two_pi_pos

theorem wrapAngle_of_mem {a : ℚ} (h0 : 0 ≤ a) (h1 : a < two_pi) : wrapAngle a = a := by
  rw [wrapAngle_eq]
  have : ⌊a / two_pi⌋ = 0 := by
    rw [Int.floor_eq_iff]
    constructor
    · simpa using div_nonneg h0 two_pi_pos.le
    · simpa using (div_lt_one two_pi_pos).mpr h1
  rw [this]; simp

theorem clamp_mem (x : ℚ) {lo hi : ℚ} (h : lo ≤ hi) : lo ≤ clamp x lo hi ∧ clamp x lo hi ≤ hi := by
  unfold clamp
  exact ⟨le_min (le_max_right _ _) h, min_le_right _ _⟩

end glm

namespace fp

theorem log_eq {q : ℚ} {e : ℤ} (h1 : (2 : ℚ) ^ e ≤ |q|) (h2 : |q| < (2 : ℚ) ^ (e + 1)) :
    Int.log 2 |q| = e := by
  have hpos : 0 < |q| := lt_of_lt_of_le (zpow_pos (by norm_num) e) h1
  have a := Int.zpow_log_le_self (b := 2) (by norm_num) hpos
  have b := Int.lt_zpow_succ_log_self (b := 2) (by norm_num) |q|
  rw [Nat.cast_ofNat] at a b
  have c := (zpow_lt_zpow_iff_right₀ (by norm_num : (1 : ℚ) < 2)).1 (lt_of_le_of_lt a h2)
  have d := (zpow_lt_zpow_iff_right₀ (by norm_num : (1 : ℚ) < 2)).1 (lt_of_le_of_lt h1 b)
  omega

/-- The value of `roundTo` at a number `q` of the binade of `2 ^ e`: the
multiple `n` of the unit in the last place that is less than half a unit away
from `q`. -/
theorem roundTo_eq (p : ℤ) (q : ℚ) (e n : ℤ) (h1 : (2 : ℚ) ^ e ≤ |q|)
    (h2 : |q| < (2 : ℚ) ^ (e + 1)) (h3 : (n : ℚ) - 1 / 2 < q / 2 ^ (e - (p - 1)))
    (h4 : q / 2 ^ (e - (p - 1)) < n + 1 / 2) : roundTo p q = n * 2 ^ (e - (p - 1)) := by
  have hq : q ≠ 0 := by
    intro h
    rw [h, abs_zero] at h1
    exact absurd h1 (not_le.2 (zpow_pos (by norm_num) e))
  unfold roundTo
  rw [if_neg hq, log_eq h1 h2]
  dsimp only
  generalize q / 2 ^ (e - (p - 1)) = m at h3 h4
  by_cases hm : (n : ℚ) ≤ m
  · have hf : ⌊m⌋ = n := Int.floor_eq_iff.2 ⟨hm, by linarith⟩
    rw [hf, if_pos (by linarith)]
  · have hf : ⌊m⌋ = n - 1 := Int.floor_eq_iff.2 ⟨by push_cast; linarith, by push_cast; linarith⟩
    rw [hf, if_neg (by push_cast; linarith), if_pos (by push_cast; linarith)]
    push_cast
    ring

theorem roundTo_zero (p : ℤ) : roundTo p 0 = 0 := if_pos rfl

theorem exact_single (q : ℚ) : exact.single q = q := rfl

theorem exact_double (q : ℚ) : exact.double q = q := rfl

end fp

namespace glm

theorem wrapAngleR_nonneg (r : fp.Rounding) (a : ℚ) : 0 ≤ wrapAngleR r a := abs_nonneg _

theorem wrapAngleR_exact (a : ℚ) : wrapAngleR fp.exact a = wrapAngle a := rfl

/-- The steps of `wrapAngleR` at one angle. -/
theorem wrapAngleR_eval (r : fp.Rounding) (a q : ℚ) (f : ℤ) (p s : ℚ)
    (h1 : r.single (a / two_pi) = q) (h2 : ⌊q⌋ = f) (h3 : r.single (two_pi * f) = p)
    (h4 : r.single (a - p) = s) : wrapAngleR r a = |s| := by
  unfold wrapAngleR modR
  rw [h1, h2, h3, h4]

end glm

namespace our

theorem bind_eq_ok {α β : Type} (x : Except Fault α) (f : α → Except Fault β) (b : β) :
    (x >>= f) = .ok b ↔ ∃ a, x = .ok a ∧ f a = .ok b := by
  cases x with
  | error e => simp [bind, Except.bind]
  | ok a => simp [bind, Except.bind]

theorem searchCamera_found (l : List Entity) (found : Option Nat × Option Nat) (c k : Nat)
    (h : searchCamera l found = (some c, some k)) :
    (l = [] ∧ found = (some c, some k)) ∨
      ∃ e ∈ l, e.id = c ∧ k = c ∧ e.camera.isSome = true ∧ e.controller.isSome = true := by
  induction l generalizing found with
  | nil => left; exact ⟨rfl, by simpa [searchCamera] using h⟩
  | cons e es ih =>
    right
    unfold searchCamera at h
    simp only at h
    split at h
    · rename_i hboth
      simp only [Option.isSome_map', Bool.and_eq_true] at hboth
      refine ⟨e, List.mem_cons_self _ _, ?_⟩
      cases hc : e.camera <;> cases hk : e.controller <;> simp_all
      omega
    · rename_i hboth
      rcases ih _ h with ⟨_, hacc⟩ | ⟨e', he', h'⟩
      · exfalso
        apply hboth
        cases hc : e.camera <;> cases hk : e.controller <;> simp_all
      · exact ⟨e', List.mem_cons_of_mem _ he', h'⟩

theorem update_of_search (lib : Numerics) (app : Application) (self : FreeCameraControllerSystem)
    (world : World) (deltaTime : ℚ) (camera controller : Nat)
    (hsearch : searchCamera world.entities (none, none) = (some camera, some controller))
    (out : Outcome) :
    update lib app self world deltaTime = .ok out ↔
      ∃ ctl w1 w2 requests,
        world.controllerAt controller = .ok ctl ∧
        navigate lib app ctl camera camera (findPlayer world.entities) deltaTime world = .ok w1 ∧
        collect lib (findPlayer world.entities) w1 = .ok (w2, requests) ∧
        out = { system := { mouse_locked := (toggleMouse app self.mouse_locked).1 },
                world := w2.deleteMarkedEntities,
                effects := (toggleMouse app self.mouse_locked).2 ++ requests ++
                  [Effect.deleteMarkedEntities] } := by
  unfold update
  rw [hsearch]
  simp only [bind_eq_ok]
  constructor
  · rintro ⟨ctl, h1, w1, h2, ⟨w2, req⟩, h3, h4⟩
    refine ⟨ctl, w1, w2, req, h1, h2, h3, ?_⟩
    simpa [pure, Except.pure] using h4.symm
  · rintro ⟨ctl, w1, w2, req, h1, h2, h3, h4⟩
    refine ⟨ctl, h1, w1, h2, (w2, req), h3, ?_⟩
    simp [pure, Except.pure, h4]

theorem Entity.mapPosition_id (x : Entity) : x.mapPosition (fun p => p) = x := rfl

theorem Entity.mapPosition_comp (f g : Vec3 → Vec3) (x : Entity) :
    (x.mapPosition f).mapPosition g = x.mapPosition (fun p => g (f p)) := rfl

theorem Shift.refl (w : World) : Shift w w :=
  ⟨fun x => x, by simp, fun x => ⟨fun p => p, rfl⟩⟩

theorem Shift.trans {a b c : World} (h1 : Shift a b) (h2 : Shift b c) : Shift a c := by
  obtain ⟨G, rfl, hG⟩ := h1
  obtain ⟨H, rfl, hH⟩ := h2
  refine ⟨fun x => H (G x), by simp [List.map_map, Function.comp_def], fun x => ?_⟩
  obtain ⟨g, hg⟩ := hG x
  obtain ⟨h, hh⟩ := hH (G x)
  exact ⟨fun p => h (g p), by show H (G x) = _; rw [hh, hg]; rfl⟩

theorem Shift.modify (w : World) (i : Nat) (f : Vec3 → Vec3) :
    Shift w (w.modify i (Entity.mapPosition f)) := by
  refine ⟨fun x => if x.id = i then x.mapPosition f else x, rfl, fun x => ?_⟩
  by_cases h : x.id = i
  · exact ⟨f, by simp [h]⟩
  · exact ⟨fun p => p, by simp [h, Entity.mapPosition_id]⟩

theorem moveBoth_ok {w w' : World} {entity : Nat} {player : Option Nat} {f : Vec3 → Vec3}
    (h : moveBoth w entity player f = .ok w') :
    ∃ p, player = some p ∧
      w' = (w.modify entity (Entity.mapPosition f)).modify p (Entity.mapPosition f) := by
  cases player with
  | none => simp [moveBoth, World.modifyPlayer] at h
  | some p =>
    refine ⟨p, rfl, ?_⟩
    simpa [moveBoth, World.modifyPlayer] using h.symm

theorem moveBoth_shift {w w' : World} {entity : Nat} {player : Option Nat} {f : Vec3 → Vec3}
    (h : moveBoth w entity player f = .ok w') : Shift w w' := by
  obtain ⟨p, -, rfl⟩ := moveBoth_ok h
  exact (Shift.modify _ _ _).trans (Shift.modify _ _ _)

theorem ite_shift (w : World) (c : Bool) (i : Nat) (f : Vec3 → Vec3) :
    Shift w (if c = true then w.modify i (Entity.mapPosition f) else w) := by
  split
  · exact Shift.modify _ _ _
  · exact Shift.refl _

theorem keyed_shift {w w' : World} {c : Bool} {m : Except Fault World}
    (hm : ∀ v, m = .ok v → Shift w v)
    (h : (if c = true then m else pure w) = .ok w') : Shift w w' := by
  cases c with
  | false =>
    have : w = w' := by simpa [pure, Except.pure] using h
    exact this ▸ Shift.refl w
  | true => exact hm _ (by simpa using h)

theorem translate_shift {app : Application} {entity : Nat} {player : Option Nat}
    {deltaTime : ℚ} {cs front up right : Vec3} {w w' : World}
    (h : translate app entity player deltaTime cs front up right w = .ok w') : Shift w w' := by
  unfold translate at h
  simp only [bind_eq_ok] at h
  obtain ⟨a, ha, b, hb, c, hc, hd⟩ := h
  have h1 : Shift w a := keyed_shift (fun v hv => moveBoth_shift hv) ha
  have h2 : Shift a b := keyed_shift (fun v hv => moveBoth_shift hv) hb
  have h5 := keyed_shift (fun v hv => moveBoth_shift hv) hc
  have h6 : Shift c w' := keyed_shift (fun v hv => moveBoth_shift hv) hd
  exact h1.trans (h2.trans ((ite_shift _ _ _ _).trans ((ite_shift _ _ _ _).trans
    (h5.trans h6))))

@[simp] theorem Entity.mapPosition_fields (f : Vec3 → Vec3) (x : Entity) :
    (x.mapPosition f).id = x.id ∧ (x.mapPosition f).materialName = x.materialName ∧
    (x.mapPosition f).meshRenderer = x.meshRenderer ∧ (x.mapPosition f).camera = x.camera ∧
    (x.mapPosition f).controller = x.controller ∧
    (x.mapPosition f).localTransform.rotation = x.localTransform.rotation :=
  ⟨rfl, rfl, rfl, rfl, rfl, rfl⟩

theorem orient_eq (app : Application) (controller : FreeCameraControllerComponent)
    (entity camera : Nat) (world : World) :
    orient app controller entity camera world =
      { entities := world.entities.map (orientEntity app controller entity camera),
        markedForRemoval := world.markedForRemoval } := by
  simp [orient, World.modify, orientEntity, List.map_map, Function.comp_def]

theorem arrows_eq (app : Application) (entity : Nat) (front : Vec3) (world : World) :
    arrows app entity front world =
      { entities := world.entities.map (arrowsEntity app entity front),
        markedForRemoval := world.markedForRemoval } := by
  unfold arrows arrowsEntity
  cases app.keyboard Key.LEFT <;> cases app.keyboard Key.RIGHT <;>
    simp [World.modify, List.map_map, Function.comp_def]

theorem navigate_ok {lib : Numerics} {app : Application}
    {controller : FreeCameraControllerComponent} {entity camera : Nat} {player : Option Nat}
    {deltaTime : ℚ} {world w1 : World}
    (h : navigate lib app controller entity camera player deltaTime world = .ok w1) :
    ∃ (front : Vec3) (T : Entity → Entity), (∀ x, ∃ g, T x = x.mapPosition g) ∧
      w1 = { entities := world.entities.map (fun x =>
               arrowsEntity app entity front (T (orientEntity app controller entity camera x))),
             markedForRemoval := world.markedForRemoval } := by
  unfold navigate at h
  simp only [bind_eq_ok] at h
  obtain ⟨ent, -, w', hw', h1⟩ := h
  obtain ⟨T, rfl, hT⟩ := translate_shift hw'
  refine ⟨((lib.toMat4 ent.localTransform).mulVec ⟨0, 0, -1, 0⟩).xyz, T, hT, ?_⟩
  simp only [pure, Except.pure, Except.ok.injEq] at h1
  rw [← h1, arrows_eq, orient_eq]
  simp [List.map_map, Function.comp_def]

theorem World.markForRemoval_entities (w : World) (i : Nat) :
    (w.markForRemoval i).entities = w.entities := by
  unfold World.markForRemoval
  split <;> rfl

theorem World.mem_markForRemoval (w : World) (i j : Nat) :
    j ∈ (w.markForRemoval i).markedForRemoval ↔ j = i ∨ j ∈ w.markedForRemoval := by
  unfold World.markForRemoval
  split
  · rename_i h
    constructor
    · exact Or.inr
    · rintro (rfl | h')
      · exact h
      · exact h'
  · simp

theorem scan_ok {lib : Numerics} {player : Entity} {l : List Entity} {w w2 : World}
    {requests : List Effect} (h : scan lib player l w = .ok (w2, requests)) :
    w2.entities = w.entities ∧
      requests = (l.filter (collides lib player)).map (fun e => Effect.markForRemoval e.id) ∧
      ∀ i, i ∈ w2.markedForRemoval ↔
        i ∈ w.markedForRemoval ∨ ∃ e ∈ l, collides lib player e = true ∧ e.id = i := by
  induction l generalizing w w2 requests with
  | nil =>
    simp only [scan, pure, Except.pure, Except.ok.injEq, Prod.mk.injEq] at h
    obtain ⟨rfl, rfl⟩ := h
    simp
  | cons d ds ih =>
    unfold scan at h
    by_cases htag : d.materialName = "battery"
    · simp only [htag, if_true, bind_eq_ok] at h
      obtain ⟨hit, hhit, h⟩ := h
      cases hit with
      | true =>
        simp only [if_true, bind_eq_ok] at h
        obtain ⟨⟨w3, r3⟩, h3, h4⟩ := h
        simp only [pure, Except.pure, Except.ok.injEq, Prod.mk.injEq] at h4
        obtain ⟨rfl, rfl⟩ := h4
        obtain ⟨e1, e2, e3⟩ := ih h3
        have hc : collides lib player d = true := by simp [collides, htag, hhit]
        refine ⟨by rw [e1, World.markForRemoval_entities], ?_, fun i => ?_⟩
        · simp [List.filter_cons, hc, e2]
        · rw [e3, World.mem_markForRemoval]
          constructor
          · rintro ((rfl | h') | ⟨e, he, hh⟩)
            · exact Or.inr ⟨d, List.mem_cons_self _ _, hc, rfl⟩
            · exact Or.inl h'
            · exact Or.inr ⟨e, List.mem_cons_of_mem _ he, hh⟩
          · rintro (h' | ⟨e, he, hh⟩)
            · exact Or.inl (Or.inr h')
            · rcases List.mem_cons.mp he with rfl | he'
              · exact Or.inl (Or.inl hh.2.symm)
              · exact Or.inr ⟨e, he', hh⟩
      | false =>
        simp only [Bool.false_eq_true, if_false] at h
        obtain ⟨e1, e2, e3⟩ := ih h
        have hc : collides lib player d = false := by simp [collides, hhit]
        refine ⟨e1, ?_, fun i => ?_⟩
        · simp [List.filter_cons, hc, e2]
        · rw [e3]
          constructor
          · rintro (h' | ⟨e, he, hh⟩)
            · exact Or.inl h'
            · exact Or.inr ⟨e, List.mem_cons_of_mem _ he, hh⟩
          · rintro (h' | ⟨e, he, hh⟩)
            · exact Or.inl h'
            · rcases List.mem_cons.mp he with rfl | he'
              · rw [hc] at hh; exact absurd hh.1 (by simp)
              · exact Or.inr ⟨e, he', hh⟩
    · simp only [htag, if_false] at h
      obtain ⟨e1, e2, e3⟩ := ih h
      have hc : collides lib player d = false := by simp [collides, htag]
      refine ⟨e1, ?_, fun i => ?_⟩
      · simp [List.filter_cons, hc, e2]
      · rw [e3]
        constructor
        · rintro (h' | ⟨e, he, hh⟩)
          · exact Or.inl h'
          · exact Or.inr ⟨e, List.mem_cons_of_mem _ he, hh⟩
        · rintro (h' | ⟨e, he, hh⟩)
          · exact Or.inl h'
          · rcases List.mem_cons.mp he with rfl | he'
            · rw [hc] at hh; exact absurd hh.1 (by simp)
            · exact Or.inr ⟨e, he', hh⟩

theorem scan_completes (lib : Numerics) (player : Entity) (l : List Entity) (w : World)
    (hl : ∀ e ∈ l, e.materialName = "battery" → ∃ b, proximity lib player e = .ok b) :
    ∃ r, scan lib player l w = .ok r := by
  induction l generalizing w with
  | nil => exact ⟨_, rfl⟩
  | cons d ds ih =>
    have ih' := fun w => ih w (fun e he => hl e (List.mem_cons_of_mem _ he))
    unfold scan
    by_cases htag : d.materialName = "battery"
    · obtain ⟨b, hb⟩ := hl d (List.mem_cons_self _ _) htag
      simp only [htag, if_true, hb, bind, Except.bind]
      cases b with
      | true =>
        obtain ⟨r, hr⟩ := ih' (w.markForRemoval d.id)
        simp [hr, pure, Except.pure]
      | false => simpa using ih' w
    · simpa [htag] using ih' w

theorem findPlayer_some {l : List Entity} {p : Nat} (h : findPlayer l = some p) :
    ∃ e ∈ l, e.id = p ∧ e.materialName = "player" := by
  induction l with
  | nil => simp [findPlayer] at h
  | cons d ds ih =>
    unfold findPlayer at h
    split at h
    · rename_i htag
      exact ⟨d, List.mem_cons_self _ _, by simpa using h, htag⟩
    · obtain ⟨e, he, h'⟩ := ih h
      exact ⟨e, List.mem_cons_of_mem _ he, h'⟩

theorem findPlayer_none {l : List Entity} (h : findPlayer l = none) :
    ∀ e ∈ l, e.materialName ≠ "player" := by
  induction l with
  | nil => simp
  | cons d ds ih =>
    unfold findPlayer at h
    split at h
    · simp at h
    · rename_i htag
      intro e he
      rcases List.mem_cons.mp he with rfl | he'
      · exact htag
      · exact ih h e he'

theorem World.get_some {w : World} {i : Nat} {e : Entity} (h : w.get i = some e) :
    e ∈ w.entities ∧ e.id = i := by
  unfold World.get at h
  exact ⟨List.mem_of_find?_eq_some h, by simpa using List.find?_some h⟩

theorem World.get_of_mem {w : World} (hd : w.Distinct) {e : Entity} (he : e ∈ w.entities) :
    w.get e.id = some e := by
  unfold World.get
  unfold World.Distinct World.ids at hd
  generalize w.entities = l at hd he
  induction l with
  | nil => simp at he
  | cons d ds ih =>
    rw [List.map_cons, List.nodup_cons] at hd
    rcases List.mem_cons.mp he with rfl | he'
    · simp
    · have hne : d.id ≠ e.id := by
        intro heq
        exact hd.1 (heq ▸ List.mem_map_of_mem Entity.id he')
      simp [List.find?_cons, hne, ih hd.2 he']

theorem World.get_map (l : List Entity) (m : List Nat) (G : Entity → Entity)
    (hG : ∀ x, (G x).id = x.id) (i : Nat) :
    World.get { entities := l.map G, markedForRemoval := m } i =
      (World.get { entities := l, markedForRemoval := m } i).map G := by
  unfold World.get
  induction l with
  | nil => simp
  | cons d ds ih =>
    simp only [List.map_cons, List.find?_cons, hG]
    split
    · simp
    · exact ih

theorem orientEntity_fields (app : Application) (controller : FreeCameraControllerComponent)
    (entity camera : Nat) (x : Entity) :
    (orientEntity app controller entity camera x).id = x.id ∧
    (orientEntity app controller entity camera x).materialName = x.materialName ∧
    (orientEntity app controller entity camera x).meshRenderer = x.meshRenderer ∧
    (orientEntity app controller entity camera x).controller = x.controller ∧
    (orientEntity app controller entity camera x).localTransform.position =
      x.localTransform.position := by
  unfold orientEntity
  dsimp only
  split_ifs <;> exact ⟨rfl, rfl, rfl, rfl, rfl⟩

theorem leftYaw_x (r : Vec3) : (leftYaw r).x = r.x := by
  unfold leftYaw
  dsimp only
  split <;> rfl

theorem rightYaw_x (r : Vec3) : (rightYaw r).x = r.x := by
  unfold rightYaw
  dsimp only
  split <;> rfl

theorem arrowLeft_fields (front : Vec3) (x : Entity) :
    (arrowLeft front x).id = x.id ∧ (arrowLeft front x).materialName = x.materialName ∧
    (arrowLeft front x).meshRenderer = x.meshRenderer ∧
    (arrowLeft front x).controller = x.controller ∧ (arrowLeft front x).camera = x.camera ∧
    (arrowLeft front x).localTransform.rotation.x = x.localTransform.rotation.x := by
  have h := leftYaw_x x.localTransform.rotation
  exact ⟨rfl, rfl, rfl, rfl, rfl, h⟩

theorem arrowRight_fields (front : Vec3) (x : Entity) :
    (arrowRight front x).id = x.id ∧ (arrowRight front x).materialName = x.materialName ∧
    (arrowRight front x).meshRenderer = x.meshRenderer ∧
    (arrowRight front x).controller = x.controller ∧ (arrowRight front x).camera = x.camera ∧
    (arrowRight front x).localTransform.rotation.x = x.localTransform.rotation.x := by
  have h := rightYaw_x x.localTransform.rotation
  exact ⟨rfl, rfl, rfl, rfl, rfl, h⟩

theorem arrowsEntity_fields (app : Application) (entity : Nat) (front : Vec3) (x : Entity) :
    (arrowsEntity app entity front x).id = x.id ∧
    (arrowsEntity app entity front x).materialName = x.materialName ∧
    (arrowsEntity app entity front x).meshRenderer = x.meshRenderer ∧
    (arrowsEntity app entity front x).controller = x.controller ∧
    (arrowsEntity app entity front x).camera = x.camera ∧
    (arrowsEntity app entity front x).localTransform.rotation.x =
      x.localTransform.rotation.x := by
  unfold arrowsEntity
  have hl := arrowLeft_fields front x
  have hr := arrowRight_fields front x
  have hlr := arrowRight_fields front (arrowLeft front x)
  by_cases h : x.id = entity <;> cases app.keyboard Key.LEFT <;>
    cases app.keyboard Key.RIGHT <;> simp [h, hl, hr, hlr]

/-- After `navigate` every entity keeps its address, tag, mesh and controller. -/
theorem navigate_kin {lib : Numerics} {app : Application}
    {controller : FreeCameraControllerComponent} {entity camera : Nat} {player : Option Nat}
    {deltaTime : ℚ} {world w1 : World}
    (h : navigate lib app controller entity camera player deltaTime world = .ok w1) :
    ∃ G : Entity → Entity,
      w1 = { entities := world.entities.map G, markedForRemoval := world.markedForRemoval } ∧
      ∀ x, (G x).id = x.id ∧ (G x).materialName = x.materialName ∧
        (G x).meshRenderer = x.meshRenderer := by
  obtain ⟨front, T, hT, rfl⟩ := navigate_ok h
  refine ⟨_, rfl, fun x => ?_⟩
  obtain ⟨g, hg⟩ := hT (orientEntity app controller entity camera x)
  have ho := orientEntity_fields app controller entity camera x
  have ha := arrowsEntity_fields app entity front (T (orientEntity app controller entity camera x))
  have hm := Entity.mapPosition_fields g (orientEntity app controller entity camera x)
  rw [hg] at ha
  show (arrowsEntity app entity front (T (orientEntity app controller entity camera x))).id = _ ∧
    (arrowsEntity app entity front (T (orientEntity app controller entity camera x))).materialName
      = _ ∧
    (arrowsEntity app entity front (T (orientEntity app controller entity camera x))).meshRenderer
      = _
  rw [hg]
  exact ⟨ha.1.trans (hm.1.trans ho.1), ha.2.1.trans (hm.2.1.trans ho.2.1),
    ha.2.2.1.trans (hm.2.2.1.trans ho.2.2.1)⟩

theorem translate_completes (app : Application) (entity p : Nat) (deltaTime : ℚ)
    (cs front up right : Vec3) (w : World) :
    ∃ w', translate app entity (some p) deltaTime cs front up right w = .ok w' := by
  unfold translate
  simp only [moveBoth, World.modifyPlayer, bind, Except.bind, pure, Except.pure]
  cases app.keyboard Key.W <;> cases app.keyboard Key.S <;> cases app.keyboard Key.D <;>
    cases app.keyboard Key.A <;> simp

theorem navigate_completes (lib : Numerics) (app : Application)
    (controller : FreeCameraControllerComponent) (entity camera p : Nat) (deltaTime : ℚ)
    (world : World) (e : Entity) (he : world.get entity = some e) :
    ∃ w1, navigate lib app controller entity camera (some p) deltaTime world = .ok w1 := by
  unfold navigate
  have hget : (orient app controller entity camera world).get entity =
      some (orientEntity app controller entity camera e) := by
    rw [orient_eq, World.get_map _ _ _ (fun x => (orientEntity_fields _ _ _ _ x).1)]
    show Option.map _ (world.get entity) = _
    rw [he]; rfl
  simp only [World.deref, hget, bind, Except.bind, pure, Except.pure]
  obtain ⟨w', hw'⟩ := translate_completes app entity p deltaTime
    (currentSensitivity app controller)
    ((lib.toMat4 (orientEntity app controller entity camera e).localTransform).mulVec
      ⟨0, 0, -1, 0⟩).xyz
    ((lib.toMat4 (orientEntity app controller entity camera e).localTransform).mulVec
      ⟨0, 1, 0, 0⟩).xyz
    ((lib.toMat4 (orientEntity app controller entity camera e).localTransform).mulVec
      ⟨1, 0, 0, 0⟩).xyz
    (orient app controller entity camera world)
  rw [hw']
  exact ⟨_, rfl⟩

theorem proximity_completes (lib : Numerics) (player detected : Entity) (rx ry : ℚ)
    (hx : player.raduis = .ok rx) (hy : detected.raduis = .ok ry) :
    proximity lib player detected =
      .ok (decide (distance lib player.localTransform.position
        detected.localTransform.position ≤ rx + ry)) := by
  simp [proximity, hx, hy, bind, Except.bind, pure, Except.pure]

theorem Entity.raduis_congr {x y : Entity} (h : y.meshRenderer = x.meshRenderer) :
    y.raduis = x.raduis := by
  unfold Entity.raduis
  rw [h]

/-- The call returns whenever the world has a player and the player and every
battery carry a mesh. -/
theorem update_completes (lib : Numerics) (app : Application)
    (self : FreeCameraControllerSystem) (world : World) (deltaTime : ℚ) (p : Nat)
    (hd : world.Distinct) (hp : findPlayer world.entities = some p)
    (hmesh : ∀ e ∈ world.entities, (e.materialName = "battery" ∨ e.id = p) →
      ∃ r, e.raduis = .ok r) :
    ∃ out, update lib app self world deltaTime = .ok out := by
  rcases hs : searchCamera world.entities (none, none) with ⟨_ | c, _ | k⟩
  · exact ⟨_, by simp [update, hs]; rfl⟩
  · exact ⟨_, by simp [update, hs]; rfl⟩
  · exact ⟨_, by simp [update, hs]; rfl⟩
  · rcases searchCamera_found _ _ _ _ hs with ⟨-, h⟩ | ⟨e, he, rfl, rfl, -, hctl⟩
    · simp at h
    · obtain ⟨ctl, hctl'⟩ := Option.isSome_iff_exists.mp hctl
      have hget := World.get_of_mem hd he
      obtain ⟨w1, hw1⟩ := navigate_completes lib app ctl e.id e.id p deltaTime world e hget
      obtain ⟨G, rfl, hG⟩ := navigate_kin hw1
      obtain ⟨pe, hpe, hpid, -⟩ := findPlayer_some hp
      have hgetp : World.get ⟨world.entities.map G, world.markedForRemoval⟩ p =
          some (G pe) := by
        rw [World.get_map _ _ _ (fun x => (hG x).1)]
        show Option.map _ (world.get p) = _
        rw [← hpid, World.get_of_mem hd hpe]; rfl
      obtain ⟨rp, hrp⟩ := hmesh pe hpe (Or.inr hpid)
      have hscan := scan_completes lib (G pe) (world.entities.map G)
        ⟨world.entities.map G, world.markedForRemoval⟩ (by
          intro d hdm htag
          obtain ⟨x, hx, rfl⟩ := List.mem_map.mp hdm
          obtain ⟨r, hr⟩ := hmesh x hx (Or.inl ((hG x).2.1 ▸ htag))
          exact ⟨_, proximity_completes lib (G pe) (G x) rp r
            ((Entity.raduis_congr (hG pe).2.2).trans hrp)
            ((Entity.raduis_congr (hG x).2.2).trans hr)⟩)
      obtain ⟨⟨w2, req⟩, hw2⟩ := hscan
      refine ⟨_, (update_of_search lib app self world deltaTime e.id e.id hs _).mpr
        ⟨ctl, _, w2, req, ?_, hp ▸ hw1, ?_, rfl⟩⟩
      · simp [World.controllerAt, hget, hctl']
      · rw [hp]
        simp only [collect, World.deref, hgetp, bind, Except.bind]
        exact hw2

/-- C9.  When no entity of the world has both a camera component and a
free-camera-controller component, `update` returns at line 42 and is a no-op:
the world (transforms, fields of view, live entities, marks) and `mouse_locked`
are unchanged and no lock, unlock or removal call is made, whatever the
inputs. -/
theorem update_without_camera (lib : Numerics) (app : Application)
    (self : FreeCameraControllerSystem) (world : World) (deltaTime : ℚ)
    (h : ∀ e ∈ world.entities, ¬ (e.camera.isSome = true ∧ e.controller.isSome = true)) :
    update lib app self world deltaTime =
      .ok { system := self, world := world, effects := [] } := by
  rcases hs : searchCamera world.entities (none, none) with ⟨_ | c, _ | k⟩
  · simp [update, hs]; rfl
  · simp [update, hs]; rfl
  · simp [update, hs]; rfl
  · rcases searchCamera_found _ _ _ _ hs with ⟨-, h'⟩ | ⟨e, he, -, -, h1, h2⟩
    · simp at h'
    · exact absurd ⟨h1, h2⟩ (h e he)

theorem update_without_camera_witness :
    (∀ e ∈ splitWorld.entities, ¬ (e.camera.isSome = true ∧ e.controller.isSome = true)) ∧
    update sampleNumerics (sampleApp true ⟨10, 10⟩ ⟨0, 3⟩ [Key.W, Key.LEFT]) ⟨true⟩ splitWorld
        (1 / 60) =
      .ok { system := ⟨true⟩, world := splitWorld, effects := [] } :=
  ⟨by simp [splitWorld, sampleCamera, samplePlayer, sampleBattery],
   update_without_camera _ _ _ _ _
     (by simp [splitWorld, sampleCamera, samplePlayer, sampleBattery])⟩

theorem collect_ok {lib : Numerics} {player : Option Nat} {w w2 : World}
    {requests : List Effect} (h : collect lib player w = .ok (w2, requests)) :
    w2.entities = w.entities ∧
      (player = none → w2 = w ∧ requests = []) ∧
      ∀ p, player = some p → ∃ pe, w.get p = some pe ∧
        requests = (w.entities.filter (collides lib pe)).map
          (fun e => Effect.markForRemoval e.id) ∧
        ∀ i, i ∈ w2.markedForRemoval ↔
          i ∈ w.markedForRemoval ∨ ∃ e ∈ w.entities, collides lib pe e = true ∧ e.id = i := by
  cases player with
  | none =>
    simp only [collect, pure, Except.pure, Except.ok.injEq, Prod.mk.injEq] at h
    obtain ⟨rfl, rfl⟩ := h
    simp
  | some p =>
    simp only [collect, bind_eq_ok] at h
    obtain ⟨pe, hpe, hscan⟩ := h
    have hget : w.get p = some pe := by
      unfold World.deref at hpe
      split at hpe
      · rename_i x hx
        rw [hx]; simpa using hpe
      · simp at hpe
    obtain ⟨e1, e2, e3⟩ := scan_ok hscan
    refine ⟨e1, by simp, fun q hq => ?_⟩
    obtain rfl : p = q := by simpa using hq
    exact ⟨pe, hget, e2, e3⟩

/-- The shape of every call of `update` that found a camera and returned. -/
theorem update_ok {lib : Numerics} {app : Application} {self : FreeCameraControllerSystem}
    {world : World} {deltaTime : ℚ} {camera controller : Nat} {out : Outcome}
    (hs : searchCamera world.entities (none, none) = (some camera, some controller))
    (hok : update lib app self world deltaTime = .ok out) :
    ∃ ctl front T w1 w2 requests,
      world.controllerAt controller = .ok ctl ∧
      (∀ x, ∃ g, T x = x.mapPosition g) ∧
      navigate lib app ctl camera camera (findPlayer world.entities) deltaTime world = .ok w1 ∧
      w1 = { entities := world.entities.map (navigateEntity app ctl camera front T),
             markedForRemoval := world.markedForRemoval } ∧
      collect lib (findPlayer world.entities) w1 = .ok (w2, requests) ∧
      out = { system := { mouse_locked := (toggleMouse app self.mouse_locked).1 },
              world := w2.deleteMarkedEntities,
              effects := (toggleMouse app self.mouse_locked).2 ++ requests ++
                [Effect.deleteMarkedEntities] } := by
  obtain ⟨ctl, w1, w2, req, h1, h2, h3, h4⟩ :=
    (update_of_search lib app self world deltaTime camera controller hs out).mp hok
  obtain ⟨front, T, hT, hw1⟩ := navigate_ok h2
  exact ⟨ctl, front, T, w1, w2, req, h1, hT, h2, hw1, h3, h4⟩

/-- Every entity left by `update` is the navigated form of an entity of the
world it was called on. -/
theorem update_ok_mem {lib : Numerics} {app : Application} {self : FreeCameraControllerSystem}
    {world : World} {deltaTime : ℚ} {camera controller : Nat} {out : Outcome}
    (hs : searchCamera world.entities (none, none) = (some camera, some controller))
    (hok : update lib app self world deltaTime = .ok out) :
    ∃ ctl front T, world.controllerAt controller = .ok ctl ∧
      (∀ x, ∃ g, T x = x.mapPosition g) ∧
      ∀ e ∈ out.world.entities, ∃ x ∈ world.entities,
        e = navigateEntity app ctl camera front T x := by
  obtain ⟨ctl, front, T, w1, w2, req, h1, hT, -, rfl, h3, rfl⟩ := update_ok hs hok
  refine ⟨ctl, front, T, h1, hT, fun e he => ?_⟩
  have he' : e ∈ w2.entities := by
    simp only [World.deleteMarkedEntities] at he
    exact List.mem_of_mem_filter he
  rw [(collect_ok h3).1] at he'
  obtain ⟨x, hx, rfl⟩ := List.mem_map.mp he'
  exact ⟨x, hx, rfl⟩

theorem navigateEntity_id (app : Application) (controller : FreeCameraControllerComponent)
    (camera : Nat) (front : Vec3) (T : Entity → Entity)
    (hT : ∀ x, ∃ g, T x = x.mapPosition g) (x : Entity) :
    (navigateEntity app controller camera front T x).id = x.id := by
  unfold navigateEntity
  obtain ⟨g, hg⟩ := hT (orientEntity app controller camera camera x)
  rw [(arrowsEntity_fields _ _ _ _).1, hg, (Entity.mapPosition_fields _ _).1,
    (orientEntity_fields _ _ _ _ _).1]

theorem orientEntity_rotation (app : Application) (controller : FreeCameraControllerComponent)
    (entity camera : Nat) (x : Entity) (h : x.id = entity) :
    (orientEntity app controller entity camera x).localTransform.rotation =
      mouseLook app controller x.localTransform.rotation := by
  unfold orientEntity
  dsimp only
  rw [if_pos h]
  split_ifs <;> rfl

theorem orientEntity_camera (app : Application) (controller : FreeCameraControllerComponent)
    (entity camera : Nat) (x : Entity) (h : x.id = camera) :
    (orientEntity app controller entity camera x).camera =
      x.camera.map (zoom app controller) := by
  unfold orientEntity
  dsimp only
  by_cases h1 : x.id = entity
  · have h2 : (x.mapRotation (mouseLook app controller)).id = camera := h
    rw [if_pos h1, if_pos h2]
    rfl
  · rw [if_neg h1, if_pos h]
    rfl

theorem half_pi_pos : 0 < glm.half_pi := by norm_num [glm.half_pi, glm.pi]

theorem mouseLook_pitch (app : Application) (controller : FreeCameraControllerComponent)
    (rotation : Vec3) :
    -(99 / 100 * (glm.pi / 2)) ≤ (mouseLook app controller rotation).x ∧
      (mouseLook app controller rotation).x ≤ 99 / 100 * (glm.pi / 2) := by
  have hp := half_pi_pos
  unfold glm.half_pi at hp
  unfold mouseLook glm.half_pi
  dsimp only
  split_ifs <;> constructor <;> linarith

theorem World.eq_of_id_eq {w : World} (hd : w.Distinct) {a b : Entity} (ha : a ∈ w.entities)
    (hb : b ∈ w.entities) (h : a.id = b.id) : a = b := by
  have h1 := World.get_of_mem hd ha
  have h2 := World.get_of_mem hd hb
  rw [h, h2] at h1
  exact (Option.some.inj h1).symm

theorem navigateEntity_rotation (app : Application) (controller : FreeCameraControllerComponent)
    (camera : Nat) (front : Vec3) (T : Entity → Entity)
    (hT : ∀ x, ∃ g, T x = x.mapPosition g) (x : Entity) (hx : x.id = camera) :
    ∃ y, y.id = camera ∧
      y.localTransform.rotation = mouseLook app controller x.localTransform.rotation ∧
      navigateEntity app controller camera front T x = arrowsEntity app camera front y ∧
      y.camera = x.camera.map (zoom app controller) := by
  obtain ⟨g, hg⟩ := hT (orientEntity app controller camera camera x)
  refine ⟨T (orientEntity app controller camera camera x), ?_, ?_, rfl, ?_⟩
  · rw [hg, (Entity.mapPosition_fields _ _).1, (orientEntity_fields _ _ _ _ _).1, hx]
  · rw [hg, (Entity.mapPosition_fields _ _).2.2.2.2.2, orientEntity_rotation _ _ _ _ _ hx]
  · rw [hg, (Entity.mapPosition_fields _ _).2.2.2.1, orientEntity_camera _ _ _ _ _ hx]

/-- C4.  In every call of `update` that finds a camera entity and returns,
whatever the starting pitch, the mouse delta, the rotation sensitivity and the
button and key states, the pitch `rotation.x` stored in the camera entity
afterwards lies in the closed interval from -0.99*pi/2 to 0.99*pi/2. -/
theorem pitch_clamped (lib : Numerics) (app : Application) (self : FreeCameraControllerSystem)
    (world : World) (deltaTime : ℚ) (camera controller : Nat) (out : Outcome)
    (hs : searchCamera world.entities (none, none) = (some camera, some controller))
    (hok : update lib app self world deltaTime = .ok out) :
    ∀ e ∈ out.world.entities, e.id = camera →
      -(99 / 100 * (glm.pi / 2)) ≤ e.localTransform.rotation.x ∧
        e.localTransform.rotation.x ≤ 99 / 100 * (glm.pi / 2) := by
  obtain ⟨ctl, front, T, -, hT, hmem⟩ := update_ok_mem hs hok
  intro e he hid
  obtain ⟨x, -, rfl⟩ := hmem e he
  have hx : x.id = camera := (navigateEntity_id app ctl camera front T hT x).symm.trans hid
  obtain ⟨y, -, hrot, hnav, -⟩ := navigateEntity_rotation app ctl camera front T hT x hx
  rw [hnav, (arrowsEntity_fields _ _ _ _).2.2.2.2.2, hrot]
  exact mouseLook_pitch app ctl x.localTransform.rotation

theorem sampleWorld_search :
    searchCamera sampleWorld.entities (none, none) = (some 0, some 0) := by
  simp [searchCamera, sampleWorld, sampleCamera]

theorem sampleWorld_player : findPlayer sampleWorld.entities = some 1 := by
  simp [findPlayer, sampleWorld, sampleCamera, samplePlayer]

theorem sampleWorld_distinct : sampleWorld.Distinct := by
  simp [World.Distinct, World.ids, sampleWorld, sampleCamera, samplePlayer, sampleBattery]

theorem sampleWorld_mesh : ∀ e ∈ sampleWorld.entities,
    (e.materialName = "battery" ∨ e.id = 1) → ∃ r, e.raduis = .ok r := by
  simp [sampleWorld, sampleCamera, samplePlayer, sampleBattery, Entity.raduis]

theorem mouseLook_y (app : Application) (controller : FreeCameraControllerComponent)
    (rotation : Vec3) :
    (mouseLook app controller rotation).y =
      glm.wrapAngle (if app.mouse.button1 = true then
        rotation.y - app.mouse.mouseDelta.x * controller.rotationSensitivity else rotation.y) := by
  unfold mouseLook
  dsimp only
  split_ifs <;> rfl

theorem leftYaw_y (r : Vec3) : (leftYaw r).y = glm.wrapAngle (r.y + glm.half_pi / 90) := by
  unfold leftYaw
  dsimp only
  split
  · rename_i h
    show glm.wrapAngle (glm.half_pi / 90) = _
    rw [h, zero_add]
  · rfl

theorem rightYaw_y (r : Vec3) : (rightYaw r).y = glm.wrapAngle (r.y - glm.half_pi / 90) := by
  unfold rightYaw
  dsimp only
  split
  · rename_i h
    show glm.wrapAngle (-glm.half_pi / 90) = _
    rw [h, zero_sub, neg_div]
  · rfl

theorem arrowsEntity_yaw (app : Application) (entity : Nat) (front : Vec3) (x : Entity)
    (hx : x.id = entity) :
    (arrowsEntity app entity front x).localTransform.rotation.y =
      (if app.keyboard Key.RIGHT = true then
        glm.wrapAngle ((if app.keyboard Key.LEFT = true then
          glm.wrapAngle (x.localTransform.rotation.y + glm.half_pi / 90)
          else x.localTransform.rotation.y) - glm.half_pi / 90)
      else if app.keyboard Key.LEFT = true then
        glm.wrapAngle (x.localTransform.rotation.y + glm.half_pi / 90)
      else x.localTransform.rotation.y) := by
  unfold arrowsEntity
  have hl : (arrowLeft front x).id = entity := hx
  have e1 : (arrowLeft front x).localTransform.rotation.y =
      glm.wrapAngle (x.localTransform.rotation.y + glm.half_pi / 90) :=
    leftYaw_y x.localTransform.rotation
  have e2 : ∀ z : Entity, (arrowRight front z).localTransform.rotation.y =
      glm.wrapAngle (z.localTransform.rotation.y - glm.half_pi / 90) :=
    fun z => rightYaw_y z.localTransform.rotation
  cases app.keyboard Key.LEFT <;> cases app.keyboard Key.RIGHT <;>
    simp only [if_true, if_false, Bool.false_eq_true, hx, hl, e1, e2]

theorem yawPath_nonneg (r : fp.Rounding) (app : Application)
    (controller : FreeCameraControllerComponent) (yaw : ℚ) : 0 ≤ yawPath r app controller yaw := by
  unfold yawPath
  dsimp only
  split_ifs <;> exact glm.wrapAngleR_nonneg r _

/-- With exact operations `yawPath` is the yaw that `mouseLook` and then the
arrow key blocks leave. -/
theorem yawPath_exact (app : Application) (controller : FreeCameraControllerComponent)
    (yaw : ℚ) :
    yawPath fp.exact app controller yaw =
      (if app.keyboard Key.RIGHT = true then
        glm.wrapAngle ((if app.keyboard Key.LEFT = true then
          glm.wrapAngle (glm.wrapAngle (if app.mouse.button1 = true then
            yaw - app.mouse.mouseDelta.x * controller.rotationSensitivity else yaw) +
              glm.half_pi / 90)
          else glm.wrapAngle (if app.mouse.button1 = true then
            yaw - app.mouse.mouseDelta.x * controller.rotationSensitivity else yaw)) -
              glm.half_pi / 90)
      else if app.keyboard Key.LEFT = true then
        glm.wrapAngle (glm.wrapAngle (if app.mouse.button1 = true then
          yaw - app.mouse.mouseDelta.x * controller.rotationSensitivity else yaw) +
            glm.half_pi / 90)
      else glm.wrapAngle (if app.mouse.button1 = true then
        yaw - app.mouse.mouseDelta.x * controller.rotationSensitivity else yaw)) := by
  have hl : ∀ w : ℚ, (if w = 0 then glm.half_pi / 90 else w + glm.half_pi / 90) =
      w + glm.half_pi / 90 := by
    intro w
    split_ifs with h
    · rw [h, zero_add]
    · rfl
  have hr : ∀ w : ℚ, (if w = 0 then -glm.half_pi / 90 else w - glm.half_pi / 90) =
      w - glm.half_pi / 90 := by
    intro w
    split_ifs with h
    · rw [h, zero_sub, neg_div]
    · rfl
  unfold yawPath
  simp only [glm.wrapAngleR_exact, fp.exact_single, fp.exact_double, hl, hr]

/-- C5 (amended).  In every call of `update` that finds a camera entity and
returns, whatever the starting yaw and the inputs (mouse drag, LEFT and RIGHT
held or not): the yaw path of `update` ends in a `glm::wrapAngle`, an absolute
value, so what it stores is never negative, however the floating-point
operations round; and with exact operations the yaw `rotation.y` stored in the
camera entity afterwards is what `yawPath` computes from the starting yaw, is
below 2*pi, and differs from the yaw the inputs ask for (start yaw, minus the
drag, plus the LEFT increment, minus the RIGHT decrement) by an integer
multiple of 2*pi. -/
theorem yaw_wrapped (lib : Numerics) (app : Application) (self : FreeCameraControllerSystem)
    (world : World) (deltaTime : ℚ) (camera controller : Nat) (out : Outcome)
    (hs : searchCamera world.entities (none, none) = (some camera, some controller))
    (hok : update lib app self world deltaTime = .ok out) :
    ∃ ctl, world.controllerAt controller = .ok ctl ∧
      (∀ (r : fp.Rounding) (yaw : ℚ), 0 ≤ yawPath r app ctl yaw) ∧
      ∀ e ∈ out.world.entities, e.id = camera →
        ∃ x ∈ world.entities, x.id = camera ∧
          e.localTransform.rotation.y =
            yawPath fp.exact app ctl x.localTransform.rotation.y ∧
          0 ≤ e.localTransform.rotation.y ∧ e.localTransform.rotation.y < 2 * glm.pi ∧
          ∃ n : ℤ, e.localTransform.rotation.y =
            requestedYaw app ctl x.localTransform.rotation.y + n * (2 * glm.pi) := by
  obtain ⟨ctl, front, T, hctl, hT, hmem⟩ := update_ok_mem hs hok
  refine ⟨ctl, hctl, fun r yaw => yawPath_nonneg r app ctl yaw, fun e he hid => ?_⟩
  obtain ⟨x, hxm, rfl⟩ := hmem e he
  have hx : x.id = camera := (navigateEntity_id app ctl camera front T hT x).symm.trans hid
  obtain ⟨y, hy, hrot, hnav, -⟩ := navigateEntity_rotation app ctl camera front T hT x hx
  refine ⟨x, hxm, hx, ?_⟩
  rw [hnav, arrowsEntity_yaw app camera front y hy, hrot, mouseLook_y]
  have hw : ∀ a : ℚ, ∃ n : ℤ, glm.wrapAngle a = a + n * (2 * glm.pi) := fun a =>
    ⟨-⌊a / glm.two_pi⌋, by rw [glm.wrapAngle_eq, glm.two_pi]; push_cast; ring⟩
  have h0 := glm.wrapAngle_nonneg
  have h1 := glm.wrapAngle_lt
  unfold glm.two_pi at h1
  refine ⟨(yawPath_exact app ctl _).symm, ?_, ?_, ?_⟩
  · split_ifs <;> exact h0 _
  · split_ifs <;> exact h1 _
  · unfold requestedYaw
    generalize (if app.mouse.button1 = true then
      x.localTransform.rotation.y - app.mouse.mouseDelta.x * ctl.rotationSensitivity
      else x.localTransform.rotation.y) = a
    obtain ⟨n1, e1⟩ := hw a
    cases app.keyboard Key.LEFT <;> cases app.keyboard Key.RIGHT <;>
      simp only [if_true, if_false, Bool.false_eq_true]
    · exact ⟨n1, by rw [e1]; ring⟩
    · obtain ⟨n2, e2⟩ := hw (glm.wrapAngle a - glm.half_pi / 90)
      exact ⟨n1 + n2, by rw [e2, e1]; push_cast; ring⟩
    · obtain ⟨n2, e2⟩ := hw (glm.wrapAngle a + glm.half_pi / 90)
      exact ⟨n1 + n2, by rw [e2, e1]; push_cast; ring⟩
    · obtain ⟨n2, e2⟩ := hw (glm.wrapAngle a + glm.half_pi / 90)
      obtain ⟨n3, e3⟩ := hw (glm.wrapAngle (glm.wrapAngle a + glm.half_pi / 90) -
        glm.half_pi / 90)
      exact ⟨n1 + n2 + n3, by rw [e3, e2, e1]; push_cast; ring⟩

/-- C6.  In every call of `update` that finds a camera entity and returns,
whatever the starting field of view, the scroll offset and the fov
sensitivity, the `fovY` stored in the camera afterwards is the clamp of
`old fovY + scroll.y * fovSensitivity` to the interval from 0.01*pi to 0.99*pi,
and lies in that interval. -/
theorem fov_clamped (lib : Numerics) (app : Application) (self : FreeCameraControllerSystem)
    (world : World) (deltaTime : ℚ) (camera controller : Nat) (out : Outcome)
    (hd : world.Distinct)
    (hs : searchCamera world.entities (none, none) = (some camera, some controller))
    (hok : update lib app self world deltaTime = .ok out) :
    ∃ ctl, world.controllerAt controller = .ok ctl ∧
      ∀ e ∈ out.world.entities, e.id = camera →
        ∃ x ∈ world.entities, x.id = camera ∧ ∃ old new, x.camera = some old ∧
          e.camera = some new ∧
          new.fovY = glm.clamp (old.fovY + app.mouse.scrollOffset.y * ctl.fovSensitivity)
            (1 / 100 * glm.pi) (99 / 100 * glm.pi) ∧
          1 / 100 * glm.pi ≤ new.fovY ∧ new.fovY ≤ 99 / 100 * glm.pi := by
  obtain ⟨ctl, front, T, hctl, hT, hmem⟩ := update_ok_mem hs hok
  refine ⟨ctl, hctl, fun e he hid => ?_⟩
  obtain ⟨x, hxm, rfl⟩ := hmem e he
  have hx : x.id = camera := (navigateEntity_id app ctl camera front T hT x).symm.trans hid
  obtain ⟨y, -, -, hnav, hcam⟩ := navigateEntity_rotation app ctl camera front T hT x hx
  rcases searchCamera_found _ _ _ _ hs with ⟨-, h⟩ | ⟨c, hc, hcid, -, hsome, -⟩
  · simp at h
  · have hxc : x = c := World.eq_of_id_eq hd hxm hc (hx.trans hcid.symm)
    obtain ⟨old, hold⟩ := Option.isSome_iff_exists.mp hsome
    rw [← hxc] at hold
    refine ⟨x, hxm, hx, old, zoom app ctl old, hold, ?_, ?_, ?_⟩
    · rw [hnav, (arrowsEntity_fields _ _ _ _).2.2.2.2.1, hcam, hold]
      rfl
    · show glm.clamp _ (glm.pi * (1 / 100)) (glm.pi * (99 / 100)) = _
      rw [mul_comm glm.pi, mul_comm glm.pi]
    · have hb : (1 / 100 * glm.pi : ℚ) ≤ 99 / 100 * glm.pi := by
        have := glm.pi_pos
        linarith
      have := glm.clamp_mem (old.fovY + app.mouse.scrollOffset.y * ctl.fovSensitivity) hb
      show 1 / 100 * glm.pi ≤ glm.clamp _ (glm.pi * (1 / 100)) (glm.pi * (99 / 100)) ∧
        glm.clamp _ (glm.pi * (1 / 100)) (glm.pi * (99 / 100)) ≤ 99 / 100 * glm.pi
      rw [mul_comm glm.pi, mul_comm glm.pi]
      exact this

/-- C10 (as amended).  In the arrow-key path the LEFT block replaces the yaw by
`wrapAngle(yaw + (pi/2)/90)` and the RIGHT block by `wrapAngle(yaw - (pi/2)/90)`
for every yaw, zero or not: the `rotation.y == 0` branch assigns the value the
general branch would assign, so the path has no sign flip at yaw = 0. -/
theorem arrow_yaw_uniform (front : Vec3) (e : Entity) :
    (arrowLeft front e).localTransform.rotation.y =
        glm.wrapAngle (e.localTransform.rotation.y + glm.half_pi / 90) ∧
      (arrowRight front e).localTransform.rotation.y =
        glm.wrapAngle (e.localTransform.rotation.y - glm.half_pi / 90) :=
  ⟨leftYaw_y e.localTransform.rotation, rightYaw_y e.localTransform.rotation⟩

theorem update_yawWorld_left (yaw : ℚ) (h0 : 0 ≤ yaw) (h1 : yaw + glm.half_pi / 90 < glm.two_pi) :
    (update sampleNumerics (sampleApp false ⟨0, 0⟩ ⟨0, 0⟩ [Key.LEFT]) ⟨false⟩ (yawWorld yaw)
      (1 / 60)).toOption.bind (fun out => out.world.yawOf 0) = some (yaw + glm.half_pi / 90) := by
  have hp := half_pi_pos
  have e1 : glm.wrapAngle yaw = yaw := glm.wrapAngle_of_mem h0 (by linarith)
  have e2 : glm.wrapAngle (yaw + glm.half_pi / 90) = yaw + glm.half_pi / 90 :=
    glm.wrapAngle_of_mem (by linarith) h1
  have e3 : ¬ glm.half_pi * (99 / 100) < 0 := by linarith
  have e4 : glm.wrapAngle (glm.half_pi / 90) = glm.half_pi / 90 :=
    glm.wrapAngle_of_mem (by linarith) (by
      have : glm.half_pi / 90 ≤ yaw + glm.half_pi / 90 := by linarith
      linarith)
  by_cases hy : yaw = 0
  · subst hy
    simp [update, searchCamera, yawWorld, sampleCamera, samplePlayer, toggleMouse, sampleApp,
      findPlayer, World.controllerAt, World.get, navigate, orient, World.modify,
      Entity.mapRotation, Entity.mapCamera, Entity.mapPosition, mouseLook, zoom, World.deref,
      translate, arrows, arrowLeft, leftYaw, collect, scan, World.deleteMarkedEntities,
      sampleNumerics, bind, Except.bind, pure, Except.pure, sampleController, World.yawOf,
      Except.toOption, e1, e3, e4]
  · simp [update, searchCamera, yawWorld, sampleCamera, samplePlayer, toggleMouse, sampleApp,
      findPlayer, World.controllerAt, World.get, navigate, orient, World.modify,
      Entity.mapRotation, Entity.mapCamera, Entity.mapPosition, mouseLook, zoom, World.deref,
      translate, arrows, arrowLeft, leftYaw, collect, scan, World.deleteMarkedEntities,
      sampleNumerics, bind, Except.bind, pure, Except.pure, sampleController, World.yawOf,
      Except.toOption, e1, e2, e3, hy]

/-- C10 (counterexample).  With LEFT held, `update` turns a yaw of exactly 0
into `(pi/2)/90` and a yaw of 1 into `1 + (pi/2)/90`: the change is the same
positive increment in both cases, not of opposite sign. -/
theorem arrow_yaw_no_flip :
    (update sampleNumerics (sampleApp false ⟨0, 0⟩ ⟨0, 0⟩ [Key.LEFT]) ⟨false⟩ (yawWorld 0)
      (1 / 60)).toOption.bind (fun out => out.world.yawOf 0) = some (0 + glm.half_pi / 90) ∧
    (update sampleNumerics (sampleApp false ⟨0, 0⟩ ⟨0, 0⟩ [Key.LEFT]) ⟨false⟩ (yawWorld 1)
      (1 / 60)).toOption.bind (fun out => out.world.yawOf 0) = some (1 + glm.half_pi / 90) ∧
    0 < (0 + glm.half_pi / 90) - 0 ∧ 0 < (1 + glm.half_pi / 90) - 1 :=
  ⟨update_yawWorld_left 0 le_rfl (by norm_num [glm.half_pi, glm.two_pi, glm.pi]),
   update_yawWorld_left 1 zero_le_one (by norm_num [glm.half_pi, glm.two_pi, glm.pi]),
   by norm_num [glm.half_pi, glm.pi], by norm_num [glm.half_pi, glm.pi]⟩

/-- With a camera entity, no player and W held, `update` writes through the
reference bound from the null `player` (line 107). -/
theorem update_null_player (lib : Numerics) (app : Application)
    (self : FreeCameraControllerSystem) (world : World) (deltaTime : ℚ) (camera controller : Nat)
    (hs : searchCamera world.entities (none, none) = (some camera, some controller))
    (hp : findPlayer world.entities = none) (hW : app.keyboard Key.W = true) :
    update lib app self world deltaTime = .error .nullDeref := by
  cases h : update lib app self world deltaTime with
  | error f => cases f; rfl
  | ok out =>
    exfalso
    obtain ⟨ctl, front, T, w1, w2, req, -, -, hnav, -, -, -⟩ := update_ok hs h
    rw [hp] at hnav
    unfold navigate at hnav
    simp only [bind_eq_ok] at hnav
    obtain ⟨ent, -, w', hw', -⟩ := hnav
    unfold translate at hw'
    simp only [bind_eq_ok, hW, if_true] at hw'
    obtain ⟨a, ha, -⟩ := hw'
    obtain ⟨p, hp', -⟩ := moveBoth_ok ha
    simp at hp'

theorem lonelyWorld_search :
    searchCamera lonelyWorld.entities (none, none) = (some 0, some 0) := by
  simp [searchCamera, lonelyWorld, sampleCamera]

theorem lonelyWorld_player : findPlayer lonelyWorld.entities = none := by
  simp [findPlayer, lonelyWorld, sampleCamera, sampleBattery]

/-- C3 (failing input).  On a world with a camera entity and a battery but no
player, with W held, `update` does not complete: it dereferences the null
player at line 107. -/
theorem update_lonelyWorld_faults :
    update sampleNumerics (sampleApp false ⟨0, 0⟩ ⟨0, 0⟩ [Key.W]) ⟨false⟩ lonelyWorld (1 / 60) =
      .error .nullDeref :=
  update_null_player _ _ _ _ _ 0 0 lonelyWorld_search lonelyWorld_player (by simp [sampleApp])

theorem navigate_ids {lib : Numerics} {app : Application}
    {controller : FreeCameraControllerComponent} {entity camera : Nat} {player : Option Nat}
    {deltaTime : ℚ} {world w1 : World}
    (h : navigate lib app controller entity camera player deltaTime world = .ok w1) :
    w1.ids = world.ids ∧ w1.markedForRemoval = world.markedForRemoval := by
  obtain ⟨G, rfl, hG⟩ := navigate_kin h
  refine ⟨?_, rfl⟩
  unfold World.ids
  rw [List.map_map]
  exact List.map_congr_left (fun x _ => (hG x).1)

theorem navigate_distinct {lib : Numerics} {app : Application}
    {controller : FreeCameraControllerComponent} {entity camera : Nat} {player : Option Nat}
    {deltaTime : ℚ} {world w1 : World}
    (h : navigate lib app controller entity camera player deltaTime world = .ok w1)
    (hd : world.Distinct) : w1.Distinct := by
  unfold World.Distinct
  rw [(navigate_ids h).1]
  exact hd

/-- The shape of every call of `update` that found a camera and a player and
returned: the removal requests are those of the batteries that collide with
the player at the positions after `navigate`, and when nothing was marked on
entry exactly these entities are deleted. -/
theorem update_ok_player {lib : Numerics} {app : Application}
    {self : FreeCameraControllerSystem} {world : World} {deltaTime : ℚ}
    {camera controller p : Nat} {out : Outcome} (hd : world.Distinct)
    (hs : searchCamera world.entities (none, none) = (some camera, some controller))
    (hp : findPlayer world.entities = some p)
    (hok : update lib app self world deltaTime = .ok out) :
    ∃ ctl w1 pe, world.controllerAt controller = .ok ctl ∧
      navigate lib app ctl camera camera (some p) deltaTime world = .ok w1 ∧
      w1.get p = some pe ∧
      out.system.mouse_locked = (toggleMouse app self.mouse_locked).1 ∧
      out.effects = (toggleMouse app self.mouse_locked).2 ++
        (w1.entities.filter (collides lib pe)).map (fun e => Effect.markForRemoval e.id) ++
        [Effect.deleteMarkedEntities] ∧
      out.world.markedForRemoval = [] ∧
      (world.markedForRemoval = [] →
        out.world.entities = w1.entities.filter (fun e => !collides lib pe e)) := by
  obtain ⟨ctl, front, T, w1, w2, req, hctl, -, hnav, -, hcol, rfl⟩ := update_ok hs hok
  rw [hp] at hnav hcol
  obtain ⟨hent, -, hsome⟩ := collect_ok hcol
  obtain ⟨pe, hpe, hreq, hmarks⟩ := hsome p rfl
  refine ⟨ctl, w1, pe, hctl, hnav, hpe, rfl, by rw [hreq], rfl, fun hm => ?_⟩
  have hd1 := navigate_distinct hnav hd
  have hm1 : w1.markedForRemoval = [] := (navigate_ids hnav).2.trans hm
  show List.filter _ w2.entities = _
  rw [hent]
  apply List.filter_congr
  intro e he
  have key : e.id ∈ w2.markedForRemoval ↔ collides lib pe e = true := by
    rw [hmarks, hm1]
    constructor
    · rintro (h | ⟨e', he', hc, hid⟩)
      · simp at h
      · rwa [← World.eq_of_id_eq hd1 he' he hid]
    · intro hc
      exact Or.inr ⟨e, he, hc, rfl⟩
  by_cases hc : collides lib pe e = true
  · simp [hc, key.mpr hc]
  · have : e.id ∉ w2.markedForRemoval := fun h => hc (key.mp h)
    simp [hc, this]

theorem sampleNumerics_sqrt_sq (q : ℚ) (h : 0 ≤ q) : sampleNumerics.sqrt (q * q) = q := by
  show Rat.sqrt (q * q) = q
  rw [Rat.sqrt_eq, abs_of_nonneg h]

/-- C2.  In every call of `update` on a world with nothing marked, a camera
entity and a player, if exactly k entities tagged "battery" pass the proximity
test (at the positions after the transform updates of this call), then after
the call none of them is live, every other entity is still live, and the number
of live entities has gone down by exactly k. -/
theorem removal_batch (lib : Numerics) (app : Application) (self : FreeCameraControllerSystem)
    (world : World) (deltaTime : ℚ) (camera controller p : Nat) (out : Outcome)
    (hd : world.Distinct) (hm : world.markedForRemoval = [])
    (hs : searchCamera world.entities (none, none) = (some camera, some controller))
    (hp : findPlayer world.entities = some p)
    (hok : update lib app self world deltaTime = .ok out) :
    ∃ ctl w1 pe, world.controllerAt controller = .ok ctl ∧
      navigate lib app ctl camera camera (some p) deltaTime world = .ok w1 ∧
      w1.get p = some pe ∧ w1.ids = world.ids ∧
      (∀ d ∈ w1.entities, collides lib pe d = true → d.id ∉ out.world.ids) ∧
      (∀ d ∈ w1.entities, collides lib pe d = false → d ∈ out.world.entities) ∧
      ∀ k, (w1.entities.filter (collides lib pe)).length = k →
        out.world.entities.length + k = world.entities.length := by
  obtain ⟨ctl, w1, pe, hctl, hnav, hpe, -, -, -, hent⟩ := update_ok_player hd hs hp hok
  have hent := hent hm
  have hd1 := navigate_distinct hnav hd
  have hids := (navigate_ids hnav).1
  refine ⟨ctl, w1, pe, hctl, hnav, hpe, hids, ?_, ?_, ?_⟩
  · intro d hdm hc hin
    unfold World.ids at hin
    obtain ⟨e, he, hid⟩ := List.mem_map.mp hin
    rw [hent, List.mem_filter] at he
    have := World.eq_of_id_eq hd1 he.1 hdm hid
    rw [this, hc] at he
    simp at he
  · intro d hdm hc
    rw [hent, List.mem_filter]
    exact ⟨hdm, by simp [hc]⟩
  · intro k hk
    have hlen : w1.entities.length = world.entities.length := by
      have := congrArg List.length hids
      simpa [World.ids] using this
    have hsplit := List.length_eq_countP_add_countP (collides lib pe) w1.entities
    rw [List.countP_eq_length_filter, List.countP_eq_length_filter, hk] at hsplit
    have hneg : List.filter (fun a => decide ¬collides lib pe a = true) w1.entities =
        List.filter (fun e => !collides lib pe e) w1.entities := by
      apply List.filter_congr
      intro e _
      cases collides lib pe e <;> simp
    rw [hneg, ← hent] at hsplit
    omega

/-- Two batteries within reach in one frame: both are requested and deleted
in the single call. -/
theorem update_twinWorld_idle :
    update sampleNumerics idleApp ⟨false⟩ twinWorld (1 / 60) =
      .ok { system := ⟨false⟩,
            world := ⟨[sampleCamera, samplePlayer, sampleBattery 4 (3 / 2)], []⟩,
            effects := [Effect.markForRemoval 2, Effect.markForRemoval 3,
              Effect.deleteMarkedEntities] } := by
  have h1 : Rat.sqrt (3 / 2 * (3 / 2)) = 3 / 2 := sampleNumerics_sqrt_sq _ (by norm_num)
  have h2 : Rat.sqrt (13 / 10 * (13 / 10)) = 13 / 10 := sampleNumerics_sqrt_sq _ (by norm_num)
  have h2' : Rat.sqrt (6 / 5 * (6 / 5)) = 6 / 5 := sampleNumerics_sqrt_sq _ (by norm_num)
  have h3 : glm.wrapAngle 0 = 0 := glm.wrapAngle_of_mem le_rfl glm.two_pi_pos
  have h4 : ¬ glm.half_pi * (99 / 100) < 0 := by norm_num [glm.half_pi, glm.pi]
  have h5 : glm.clamp 1 (glm.pi * 100⁻¹) (glm.pi * (99 / 100)) = 1 := by
    norm_num [glm.clamp, glm.pi]
  have h6 : ¬ ((3 / 2 : ℚ) ≤ 1 + 2 / 5) := by norm_num
  have h7 : (13 / 10 : ℚ) ≤ 1 + 2 / 5 := by norm_num
  have h8 : (6 / 5 : ℚ) ≤ 1 + 2 / 5 := by norm_num
  simp [update, searchCamera, twinWorld, sampleCamera, samplePlayer, sampleBattery,
    toggleMouse, idleApp, sampleApp, findPlayer, World.controllerAt, World.get, navigate, orient,
    World.modify, Entity.mapRotation, Entity.mapCamera, mouseLook, zoom, World.deref, translate,
    arrows, collect, scan, proximity, distance, Entity.raduis, World.markForRemoval,
    World.deleteMarkedEntities, sampleNumerics, bind, Except.bind, pure, Except.pure,
    sampleController, h1, h2, h2', h3, h4, h5, h6, h7, h8]

theorem twinWorld_search :
    searchCamera twinWorld.entities (none, none) = (some 0, some 0) := by
  simp [searchCamera, twinWorld, sampleCamera]

theorem twinWorld_player : findPlayer twinWorld.entities = some 1 := by
  simp [findPlayer, twinWorld, sampleCamera, samplePlayer]

theorem twinWorld_distinct : twinWorld.Distinct := by
  simp [World.Distinct, World.ids, twinWorld, sampleCamera, samplePlayer, sampleBattery]

theorem removal_batch_witness :
    update sampleNumerics idleApp ⟨false⟩ twinWorld (1 / 60) =
      .ok { system := ⟨false⟩,
            world := ⟨[sampleCamera, samplePlayer, sampleBattery 4 (3 / 2)], []⟩,
            effects := [Effect.markForRemoval 2, Effect.markForRemoval 3,
              Effect.deleteMarkedEntities] } ∧
    ∃ ctl w1 pe, twinWorld.controllerAt 0 = .ok ctl ∧
      navigate sampleNumerics idleApp ctl 0 0 (some 1) (1 / 60) twinWorld = .ok w1 ∧
      w1.get 1 = some pe ∧ w1.ids = twinWorld.ids ∧
      (∀ d ∈ w1.entities, collides sampleNumerics pe d = true →
        d.id ∉ World.ids ⟨[sampleCamera, samplePlayer, sampleBattery 4 (3 / 2)], []⟩) ∧
      (∀ d ∈ w1.entities, collides sampleNumerics pe d = false →
        d ∈ [sampleCamera, samplePlayer, sampleBattery 4 (3 / 2)]) ∧
      ∀ k, (w1.entities.filter (collides sampleNumerics pe)).length = k →
        [sampleCamera, samplePlayer, sampleBattery 4 (3 / 2)].length + k =
          twinWorld.entities.length :=
  ⟨update_twinWorld_idle,
   removal_batch sampleNumerics idleApp ⟨false⟩ twinWorld (1 / 60) 0 0 1 _
     twinWorld_distinct rfl twinWorld_search twinWorld_player update_twinWorld_idle⟩

theorem moveBoth_some (w : World) (entity p : Nat) (f : Vec3 → Vec3) :
    moveBoth w entity (some p) f =
      .ok { entities := w.entities.map (bothEntity entity p f),
            markedForRemoval := w.markedForRemoval } := by
  simp [moveBoth, World.modifyPlayer, World.modify, bothEntity, List.map_map,
    Function.comp_def]

theorem translate_some (app : Application) (entity p : Nat) (deltaTime : ℚ)
    (cs front up right : Vec3) (w : World) :
    translate app entity (some p) deltaTime cs front up right w =
      .ok { entities := w.entities.map
              (translateEntity app entity p deltaTime cs front up right),
            markedForRemoval := w.markedForRemoval } := by
  unfold translate translateEntity
  simp only [moveBoth_some]
  cases app.keyboard Key.W <;> cases app.keyboard Key.S <;> cases app.keyboard Key.Q <;>
    cases app.keyboard Key.E <;> cases app.keyboard Key.D <;> cases app.keyboard Key.A <;>
    simp [bind, Except.bind, pure, Except.pure, World.modify, List.map_map, Function.comp_def]

theorem navigate_some {lib : Numerics} {app : Application}
    {controller : FreeCameraControllerComponent} {entity camera p : Nat}
    {deltaTime : ℚ} {world w1 : World}
    (h : navigate lib app controller entity camera (some p) deltaTime world = .ok w1) :
    ∃ front up right : Vec3,
      w1 = { entities := world.entities.map (fun x =>
               arrowsEntity app entity front
                 (translateEntity app entity p deltaTime (currentSensitivity app controller)
                   front up right (orientEntity app controller entity camera x))),
             markedForRemoval := world.markedForRemoval } := by
  unfold navigate at h
  simp only [bind_eq_ok, translate_some] at h
  obtain ⟨ent, -, w', hw', h1⟩ := h
  simp only [pure, Except.pure, Except.ok.injEq] at h1 hw'
  refine ⟨((lib.toMat4 ent.localTransform).mulVec ⟨0, 0, -1, 0⟩).xyz,
    ((lib.toMat4 ent.localTransform).mulVec ⟨0, 1, 0, 0⟩).xyz,
    ((lib.toMat4 ent.localTransform).mulVec ⟨1, 0, 0, 0⟩).xyz, ?_⟩
  rw [← h1, ← hw', arrows_eq, orient_eq]
  simp [List.map_map, Function.comp_def]

theorem bothEntity_player (entity p : Nat) (f : Vec3 → Vec3) (x : Entity) (hx : x.id = p)
    (hne : p ≠ entity) : bothEntity entity p f x = x.mapPosition f := by
  unfold bothEntity
  have h1 : ¬ x.id = entity := fun h => hne (hx.symm.trans h)
  dsimp only
  rw [if_neg h1, if_pos hx]

theorem bothEntity_camera (entity p : Nat) (f : Vec3 → Vec3) (x : Entity) (hx : x.id = entity)
    (hne : p ≠ entity) : bothEntity entity p f x = x.mapPosition f := by
  unfold bothEntity
  have h1 : ¬ (x.mapPosition f).id = p := fun h => hne (h.symm.trans hx)
  dsimp only
  rw [if_pos hx, if_neg h1]

theorem translateEntity_player (app : Application) (entity p : Nat) (deltaTime : ℚ)
    (cs front up right : Vec3) (x : Entity) (hx : x.id = p) (hne : p ≠ entity) :
    translateEntity app entity p deltaTime cs front up right x =
      x.mapPosition (wasd app deltaTime cs front right) := by
  have hb : ∀ (f g : Vec3 → Vec3), bothEntity entity p f (x.mapPosition g) =
      x.mapPosition (fun v => f (g v)) := fun f g =>
    bothEntity_player entity p f (x.mapPosition g) hx hne
  have hb0 : ∀ f : Vec3 → Vec3, bothEntity entity p f x = x.mapPosition f := fun f =>
    bothEntity_player entity p f x hx hne
  have h1 : ∀ g : Vec3 → Vec3, ¬ (x.mapPosition g).id = entity := fun g h =>
    hne (hx.symm.trans h)
  have h2 : ¬ x.id = entity := fun h => hne (hx.symm.trans h)
  unfold translateEntity wasd
  cases app.keyboard Key.W <;> cases app.keyboard Key.S <;> cases app.keyboard Key.Q <;>
    cases app.keyboard Key.E <;> cases app.keyboard Key.D <;> cases app.keyboard Key.A <;>
    simp only [if_true, if_false, Bool.false_eq_true, hb, hb0, h1, h2] <;> rfl

theorem translateEntity_camera (app : Application) (entity p : Nat) (deltaTime : ℚ)
    (cs front up right : Vec3) (x : Entity) (hx : x.id = entity) (hne : p ≠ entity)
    (hQ : app.keyboard Key.Q = false) (hE : app.keyboard Key.E = false) :
    translateEntity app entity p deltaTime cs front up right x =
      x.mapPosition (wasd app deltaTime cs front right) := by
  have hb : ∀ (f g : Vec3 → Vec3), bothEntity entity p f (x.mapPosition g) =
      x.mapPosition (fun v => f (g v)) := fun f g =>
    bothEntity_camera entity p f (x.mapPosition g) hx hne
  have hb0 : ∀ f : Vec3 → Vec3, bothEntity entity p f x = x.mapPosition f := fun f =>
    bothEntity_camera entity p f x hx hne
  unfold translateEntity wasd
  rw [hQ, hE]
  cases app.keyboard Key.W <;> cases app.keyboard Key.S <;> cases app.keyboard Key.D <;>
    cases app.keyboard Key.A <;>
    (simp only [if_true, if_false, Bool.false_eq_true, hb, hb0]; first | done | rfl)

theorem wasd_add (app : Application) (deltaTime : ℚ) (cs front right v : Vec3) :
    wasd app deltaTime cs front right v =
      v.add (wasd app deltaTime cs front right ⟨0, 0, 0⟩) := by
  unfold wasd
  cases app.keyboard Key.W <;> cases app.keyboard Key.S <;> cases app.keyboard Key.D <;>
    cases app.keyboard Key.A <;>
    simp only [if_true, if_false, Bool.false_eq_true, Vec3.add, Vec3.sub, Vec3.scale] <;>
    ext <;> ring

theorem arrowsEntity_off (app : Application) (entity : Nat) (front : Vec3) (x : Entity)
    (hL : app.keyboard Key.LEFT = false) (hR : app.keyboard Key.RIGHT = false) :
    arrowsEntity app entity front x = x := by
  unfold arrowsEntity
  rw [hL, hR]
  rfl

theorem update_ok_sub {lib : Numerics} {app : Application}
    {self : FreeCameraControllerSystem} {world : World} {deltaTime : ℚ}
    {camera controller p : Nat} {out : Outcome} {ctl : FreeCameraControllerComponent}
    {w1 : World}
    (hs : searchCamera world.entities (none, none) = (some camera, some controller))
    (hp : findPlayer world.entities = some p)
    (hok : update lib app self world deltaTime = .ok out)
    (hctl : world.controllerAt controller = .ok ctl)
    (hnav : navigate lib app ctl camera camera (some p) deltaTime world = .ok w1) :
    ∀ e ∈ out.world.entities, e ∈ w1.entities := by
  obtain ⟨ctl', front, T, w1', w2, req, hctl', -, hnav', -, hcol, rfl⟩ := update_ok hs hok
  rw [hctl] at hctl'
  obtain rfl : ctl = ctl' := by simpa using hctl'
  rw [hp, hnav] at hnav'
  obtain rfl : w1 = w1' := by simpa using hnav'
  intro e he
  have he' : e ∈ w2.entities := by
    simp only [World.deleteMarkedEntities] at he
    exact List.mem_of_mem_filter he
  rwa [(collect_ok hcol).1] at he'

theorem bothEntity_id (entity p : Nat) (f : Vec3 → Vec3) (x : Entity) :
    (bothEntity entity p f x).id = x.id := by
  unfold bothEntity
  dsimp only
  split_ifs <;> rfl

theorem ite_mapPosition_id (c : Prop) [Decidable c] (g : Vec3 → Vec3) (x : Entity) :
    (if c then x.mapPosition g else x).id = x.id := by
  split_ifs <;> rfl

theorem translateEntity_id (app : Application) (entity p : Nat) (deltaTime : ℚ)
    (cs front up right : Vec3) (x : Entity) :
    (translateEntity app entity p deltaTime cs front up right x).id = x.id := by
  unfold translateEntity
  cases app.keyboard Key.W <;> cases app.keyboard Key.S <;> cases app.keyboard Key.Q <;>
    cases app.keyboard Key.E <;> cases app.keyboard Key.D <;> cases app.keyboard Key.A <;>
    simp only [if_true, if_false, Bool.false_eq_true, bothEntity_id, ite_mapPosition_id]

theorem player_not_collides (lib : Numerics) (player x : Entity)
    (h : x.materialName = "player") : collides lib player x = false := by
  have hne : ¬ ("player" = "battery") := by decide
  simp [collides, h, hne]

/-- C8.  In every call of `update` that returns, on a world with a camera
entity and a distinct player entity, for every deltaTime, sensitivity and
speed-up setting and every combination of W, S, A, D held (Q, E, LEFT and RIGHT
not held), there is one vector that the call adds to the position of the
player and to the position of the camera entity; and the player is still live
after the call when nothing was marked on entry. -/
theorem translation_lockstep (lib : Numerics) (app : Application)
    (self : FreeCameraControllerSystem) (world : World) (deltaTime : ℚ)
    (camera controller p : Nat) (out : Outcome) (hd : world.Distinct)
    (hs : searchCamera world.entities (none, none) = (some camera, some controller))
    (hp : findPlayer world.entities = some p) (hne : p ≠ camera)
    (hQ : app.keyboard Key.Q = false) (hE : app.keyboard Key.E = false)
    (hL : app.keyboard Key.LEFT = false) (hR : app.keyboard Key.RIGHT = false)
    (hok : update lib app self world deltaTime = .ok out) :
    (∃ displacement : Vec3, ∀ x ∈ world.entities, (x.id = camera ∨ x.id = p) →
      ∀ e ∈ out.world.entities, e.id = x.id →
        e.localTransform.position = x.localTransform.position.add displacement) ∧
    (world.markedForRemoval = [] → ∃ e ∈ out.world.entities, e.id = p) := by
  obtain ⟨ctl, w1, pe, hctl, hnav, hpe, -, -, -, hent⟩ := update_ok_player hd hs hp hok
  have hsub := update_ok_sub hs hp hok hctl hnav
  obtain ⟨front, up, right, hw1⟩ := navigate_some hnav
  constructor
  · refine ⟨wasd app deltaTime (currentSensitivity app ctl) front right ⟨0, 0, 0⟩, ?_⟩
    intro x hx hxid e he heid
    have he1 := hsub e he
    rw [hw1] at he1
    obtain ⟨x', hx', rfl⟩ := List.mem_map.mp he1
    have ho := orientEntity_fields app ctl camera camera x'
    rw [arrowsEntity_off _ _ _ _ hL hR] at heid ⊢
    rw [translateEntity_id, ho.1] at heid
    obtain rfl : x' = x := World.eq_of_id_eq hd hx' hx heid
    rw [← wasd_add, ← ho.2.2.2.2]
    rcases hxid with h | h
    · rw [translateEntity_camera _ _ _ _ _ _ _ _ _ (ho.1.trans h) hne hQ hE]
      rfl
    · rw [translateEntity_player _ _ _ _ _ _ _ _ _ (ho.1.trans h) hne]
      rfl
  · intro hm
    have hpm := World.get_some hpe
    obtain ⟨G, hG1, hG⟩ := navigate_kin hnav
    obtain ⟨x0, hx0, hx0id, hx0tag⟩ := findPlayer_some hp
    have hpe_mem := hpm.1
    rw [hG1] at hpe_mem
    obtain ⟨x', hx', hpe'⟩ := List.mem_map.mp hpe_mem
    have hid' : x'.id = x0.id := by
      rw [← (hG x').1, hpe', hpm.2, hx0id]
    have hxx : x' = x0 := World.eq_of_id_eq hd hx' hx0 hid'
    have htag : pe.materialName = "player" := by
      rw [← hpe', (hG x').2.1, hxx, hx0tag]
    refine ⟨pe, ?_, hpm.2⟩
    rw [hent hm, List.mem_filter]
    exact ⟨hpm.1, by simp [player_not_collides lib pe pe htag]⟩

theorem translation_lockstep_witness :
    ∃ out, update sampleNumerics
        (sampleApp true ⟨3, 4⟩ ⟨0, 1⟩ [Key.W, Key.D, Key.LEFT_SHIFT]) ⟨false⟩ sampleWorld
        (1 / 60) = .ok out ∧
      (∃ displacement : Vec3, ∀ x ∈ sampleWorld.entities, (x.id = 0 ∨ x.id = 1) →
        ∀ e ∈ out.world.entities, e.id = x.id →
          e.localTransform.position = x.localTransform.position.add displacement) ∧
      (sampleWorld.markedForRemoval = [] → ∃ e ∈ out.world.entities, e.id = 1) := by
  obtain ⟨out, h⟩ := update_completes sampleNumerics
    (sampleApp true ⟨3, 4⟩ ⟨0, 1⟩ [Key.W, Key.D, Key.LEFT_SHIFT]) ⟨false⟩ sampleWorld (1 / 60) 1
    sampleWorld_distinct sampleWorld_player sampleWorld_mesh
  exact ⟨out, h, translation_lockstep _ _ _ _ _ 0 0 1 out sampleWorld_distinct
    sampleWorld_search sampleWorld_player (by decide) (by simp [sampleApp])
    (by simp [sampleApp]) (by simp [sampleApp]) (by simp [sampleApp]) h⟩

theorem update_not_found (lib : Numerics) (app : Application)
    (self : FreeCameraControllerSystem) (world : World) (deltaTime : ℚ)
    (h : ∀ c k, searchCamera world.entities (none, none) ≠ (some c, some k)) :
    update lib app self world deltaTime =
      .ok { system := self, world := world, effects := [] } := by
  rcases hs : searchCamera world.entities (none, none) with ⟨_ | c, _ | k⟩
  · simp [update, hs]; rfl
  · simp [update, hs]; rfl
  · simp [update, hs]; rfl
  · exact absurd hs (h c k)

theorem toggleMouse_pressed (app : Application) (locked : Bool)
    (h : app.mouse.button1 = true) :
    toggleMouse app locked = (true, if locked = true then [] else [Effect.lockMouse]) := by
  unfold toggleMouse
  cases locked <;> simp [h]

/-- What `update` does to `mouse_locked` and which calls it makes. -/
theorem update_effects {lib : Numerics} {app : Application}
    {self : FreeCameraControllerSystem} {world : World} {deltaTime : ℚ} {out : Outcome}
    (hok : update lib app self world deltaTime = .ok out) :
    (out = { system := self, world := world, effects := [] } ∧
        ∀ c k, searchCamera world.entities (none, none) ≠ (some c, some k)) ∨
      ∃ c k requests, searchCamera world.entities (none, none) = (some c, some k) ∧
        out.system.mouse_locked = (toggleMouse app self.mouse_locked).1 ∧
        out.effects = (toggleMouse app self.mouse_locked).2 ++ requests ++
          [Effect.deleteMarkedEntities] ∧
        ∀ f ∈ requests, ∃ i, f = Effect.markForRemoval i := by
  by_cases h : ∀ c k, searchCamera world.entities (none, none) ≠ (some c, some k)
  · left
    rw [update_not_found lib app self world deltaTime h] at hok
    exact ⟨by simpa using hok.symm, h⟩
  · right
    push_neg at h
    obtain ⟨c, k, hs⟩ := h
    obtain ⟨ctl, front, T, w1, w2, req, -, -, -, -, hcol, rfl⟩ := update_ok hs hok
    refine ⟨c, k, req, hs, rfl, rfl, fun f hf => ?_⟩
    obtain ⟨-, hnone, hsome⟩ := collect_ok hcol
    cases hpl : findPlayer world.entities with
    | none =>
      rw [(hnone hpl).2] at hf
      simp at hf
    | some p =>
      obtain ⟨pe, -, hreq, -⟩ := hsome p hpl
      rw [hreq] at hf
      obtain ⟨e, -, rfl⟩ := List.mem_map.mp hf
      exact ⟨e.id, rfl⟩

theorem count_lock_requests (requests : List Effect)
    (h : ∀ f ∈ requests, ∃ i, f = Effect.markForRemoval i) (head : List Effect) :
    (head ++ requests ++ [Effect.deleteMarkedEntities]).count Effect.lockMouse =
      head.count Effect.lockMouse := by
  have h0 : requests.count Effect.lockMouse = 0 := by
    rw [List.count_eq_zero]
    intro hmem
    obtain ⟨i, hi⟩ := h _ hmem
    cases hi
  simp [List.count_append, h0]

/-- While the flag is set and the button is pressed, a call that returns makes
no lock call and leaves the flag set. -/
theorem update_held {lib : Numerics} {app : Application}
    {self : FreeCameraControllerSystem} {world : World} {deltaTime : ℚ} {out : Outcome}
    (hlocked : self.mouse_locked = true) (hpress : app.mouse.button1 = true)
    (hok : update lib app self world deltaTime = .ok out) :
    out.system.mouse_locked = true ∧ out.effects.count Effect.lockMouse = 0 := by
  rcases update_effects hok with ⟨rfl, -⟩ | ⟨c, k, req, -, hsys, heff, hreq⟩
  · exact ⟨hlocked, rfl⟩
  · rw [toggleMouse_pressed app _ hpress, hlocked] at hsys heff
    refine ⟨hsys, ?_⟩
    rw [heff, count_lock_requests req hreq]
    rfl

theorem run_held {lib : Numerics} (frames : List (Application × ℚ))
    (self : FreeCameraControllerSystem) (world : World) (outs : List Outcome)
    (hlocked : self.mouse_locked = true)
    (hpress : ∀ f ∈ frames, f.1.mouse.button1 = true)
    (hok : run lib self world frames = .ok outs) :
    outs.length = frames.length ∧
      ∀ r ∈ outs, r.system.mouse_locked = true ∧ r.effects.count Effect.lockMouse = 0 := by
  induction frames generalizing self world outs with
  | nil =>
    simp only [run, pure, Except.pure, Except.ok.injEq] at hok
    subst hok
    simp
  | cons f fs ih =>
    obtain ⟨app, dt⟩ := f
    simp only [run, bind_eq_ok] at hok
    obtain ⟨out, hout, rest, hrest, h⟩ := hok
    simp only [pure, Except.pure, Except.ok.injEq] at h
    subst h
    have h1 := update_held hlocked (hpress (app, dt) (List.mem_cons_self _ _)) hout
    have h2 := ih out.system out.world rest h1.1
      (fun g hg => hpress g (List.mem_cons_of_mem _ hg)) hrest
    refine ⟨by simp [h2.1], fun r hr => ?_⟩
    rcases List.mem_cons.mp hr with rfl | hr'
    · exact h1
    · exact h2.2 r hr'

/-- C7.  Starting with `mouse_locked` false on a world with a camera entity,
in every run of N >= 1 consecutive calls of `update` that all see the primary
button pressed, the cursor lock call is made exactly once, in the first call,
and in none of the later N - 1 calls; the flag is true after each call. -/
theorem lock_once (lib : Numerics) (self : FreeCameraControllerSystem) (world : World)
    (first : Application × ℚ) (later : List (Application × ℚ)) (camera controller : Nat)
    (outs : List Outcome) (hlocked : self.mouse_locked = false)
    (hs : searchCamera world.entities (none, none) = (some camera, some controller))
    (hpress : ∀ f ∈ first :: later, f.1.mouse.button1 = true)
    (hok : run lib self world (first :: later) = .ok outs) :
    ∃ o rest, outs = o :: rest ∧ rest.length = later.length ∧
      o.effects.count Effect.lockMouse = 1 ∧
      (∀ r ∈ rest, r.effects.count Effect.lockMouse = 0) ∧
      ∀ r ∈ o :: rest, r.system.mouse_locked = true := by
  obtain ⟨app, dt⟩ := first
  simp only [run, bind_eq_ok] at hok
  obtain ⟨out, hout, rest, hrest, h⟩ := hok
  simp only [pure, Except.pure, Except.ok.injEq] at h
  subst h
  have hp0 : app.mouse.button1 = true := hpress (app, dt) (List.mem_cons_self _ _)
  have hfirst : out.system.mouse_locked = true ∧ out.effects.count Effect.lockMouse = 1 := by
    rcases update_effects hout with ⟨-, hnone⟩ | ⟨c, k, req, -, hsys, heff, hreq⟩
    · exact absurd hs (hnone camera controller)
    · rw [toggleMouse_pressed app _ hp0, hlocked] at hsys heff
      refine ⟨hsys, ?_⟩
      rw [heff, count_lock_requests req hreq]
      rfl
  have h2 := run_held later out.system out.world rest hfirst.1
    (fun g hg => hpress g (List.mem_cons_of_mem _ hg)) hrest
  refine ⟨out, rest, rfl, h2.1, hfirst.2, fun r hr => (h2.2 r hr).2, fun r hr => ?_⟩
  rcases List.mem_cons.mp hr with rfl | hr'
  · exact hfirst.1
  · exact (h2.2 r hr').1

theorem findPlayer_map (G : Entity → Entity)
    (hG : ∀ x, (G x).id = x.id ∧ (G x).materialName = x.materialName) (l : List Entity) :
    findPlayer (l.map G) = findPlayer l := by
  induction l with
  | nil => rfl
  | cons d ds ih =>
    simp only [List.map_cons, findPlayer, (hG d).1, (hG d).2, ih]

theorem findPlayer_filter (q : Entity → Bool) (l : List Entity)
    (h : ∀ e ∈ l, e.materialName = "player" → q e = true) :
    findPlayer (l.filter q) = findPlayer l := by
  induction l with
  | nil => rfl
  | cons d ds ih =>
    have ih' := ih (fun e he => h e (List.mem_cons_of_mem _ he))
    by_cases htag : d.materialName = "player"
    · have hq := h d (List.mem_cons_self _ _) htag
      simp [List.filter_cons, hq, findPlayer, htag]
    · by_cases hq : q d = true
      · simp [List.filter_cons, hq, findPlayer, htag, ih']
      · simp [List.filter_cons, hq, findPlayer, htag, ih']

/-- A call of `update` on a ready world that returns leaves a ready world. -/
theorem update_ready {lib : Numerics} {app : Application}
    {self : FreeCameraControllerSystem} {world : World} {deltaTime : ℚ} {out : Outcome}
    {p : Nat} (hr : Ready world p) (hok : update lib app self world deltaTime = .ok out) :
    Ready out.world p := by
  obtain ⟨hd, hm, hp, hmesh⟩ := hr
  rcases update_effects hok with ⟨rfl, -⟩ | ⟨c, k, req, hs, -, -, -⟩
  · exact ⟨hd, hm, hp, hmesh⟩
  · obtain ⟨ctl, w1, pe, -, hnav, -, -, -, hmark, hent⟩ := update_ok_player hd hs hp hok
    have hent := hent hm
    obtain ⟨G, hG1, hG⟩ := navigate_kin hnav
    have hd1 := navigate_distinct hnav hd
    refine ⟨?_, hmark, ?_, ?_⟩
    · unfold World.Distinct World.ids
      rw [hent]
      exact List.Nodup.sublist (List.Sublist.map _ (List.filter_sublist _)) hd1
    · rw [hent, findPlayer_filter, hG1]
      · exact (findPlayer_map G (fun x => ⟨(hG x).1, (hG x).2.1⟩) _).trans hp
      · intro e _ htag
        simp [player_not_collides lib pe e htag]
    · intro e he hcase
      rw [hent] at he
      have he1 := List.mem_of_mem_filter he
      rw [hG1] at he1
      obtain ⟨x, hx, rfl⟩ := List.mem_map.mp he1
      rw [(hG x).1, (hG x).2.1] at hcase
      obtain ⟨r, hr⟩ := hmesh x hx hcase
      exact ⟨r, (Entity.raduis_congr (hG x).2.2).trans hr⟩

/-- On a ready world every run of consecutive calls returns. -/
theorem run_completes (lib : Numerics) (frames : List (Application × ℚ))
    (self : FreeCameraControllerSystem) (world : World) (p : Nat) (hr : Ready world p) :
    ∃ outs, run lib self world frames = .ok outs := by
  induction frames generalizing self world with
  | nil => exact ⟨[], rfl⟩
  | cons f fs ih =>
    obtain ⟨app, dt⟩ := f
    obtain ⟨out, hout⟩ := update_completes lib app self world dt p hr.1 hr.2.2.1 hr.2.2.2
    obtain ⟨outs, houts⟩ := ih out.system out.world (update_ready hr hout)
    refine ⟨out :: outs, ?_⟩
    simp only [run, hout, houts, bind, Except.bind, pure, Except.pure]

theorem sampleWorld_ready : Ready sampleWorld 1 :=
  ⟨sampleWorld_distinct, rfl, sampleWorld_player, sampleWorld_mesh⟩

theorem lock_once_witness :
    ∃ outs, run sampleNumerics ⟨false⟩ sampleWorld
        [(sampleApp true ⟨1, 2⟩ ⟨0, 0⟩ [Key.W], 1 / 60),
         (sampleApp true ⟨-3, 0⟩ ⟨0, 1⟩ [], 1 / 60),
         (sampleApp true ⟨0, 0⟩ ⟨0, 0⟩ [Key.LEFT, Key.D], 1 / 30)] = .ok outs ∧
      ∃ o rest, outs = o :: rest ∧ rest.length = 2 ∧
        o.effects.count Effect.lockMouse = 1 ∧
        (∀ r ∈ rest, r.effects.count Effect.lockMouse = 0) ∧
        ∀ r ∈ o :: rest, r.system.mouse_locked = true := by
  obtain ⟨outs, h⟩ := run_completes sampleNumerics
    [(sampleApp true ⟨1, 2⟩ ⟨0, 0⟩ [Key.W], 1 / 60),
     (sampleApp true ⟨-3, 0⟩ ⟨0, 1⟩ [], 1 / 60),
     (sampleApp true ⟨0, 0⟩ ⟨0, 0⟩ [Key.LEFT, Key.D], 1 / 30)] ⟨false⟩ sampleWorld 1
    sampleWorld_ready
  exact ⟨outs, h, lock_once sampleNumerics ⟨false⟩ sampleWorld _ _ 0 0 outs rfl
    sampleWorld_search (by simp [sampleApp]) h⟩

theorem wrapAngle_of_neg {a : ℚ} (h0 : -glm.two_pi ≤ a) (h1 : a < 0) :
    glm.wrapAngle a = a + glm.two_pi := by
  rw [glm.wrapAngle_eq]
  have hp := glm.two_pi_pos
  have : ⌊a / glm.two_pi⌋ = -1 := by
    rw [Int.floor_eq_iff]
    constructor
    · rw [le_div_iff₀ hp]; push_cast; linarith
    · rw [div_lt_iff₀ hp]; push_cast; linarith
  rw [this]; push_cast; ring

/-- One frame on the sample world with the button held, a large drag, a large
scroll and LEFT held: the pitch is clamped, the yaw wrapped and then advanced
by the LEFT increment, the field of view clamped, the cursor locked. -/
theorem update_sampleWorld_drag :
    update sampleNumerics dragApp ⟨false⟩ sampleWorld (1 / 60) = .ok dragOutcome := by
  have h1 : Rat.sqrt (3 / 2 * (3 / 2)) = 3 / 2 := sampleNumerics_sqrt_sq _ (by norm_num)
  have h2 : Rat.sqrt (13 / 10 * (13 / 10)) = 13 / 10 := sampleNumerics_sqrt_sq _ (by norm_num)
  have h3 : glm.half_pi * (99 / 100) < 1000 * 100⁻¹ := by norm_num [glm.half_pi, glm.pi]
  have h4 : ¬ glm.half_pi * (99 / 100) < -(glm.half_pi * (99 / 100)) := by
    norm_num [glm.half_pi, glm.pi]
  have h5 : glm.wrapAngle (-(10 * 100⁻¹)) = 2 * glm.pi - 10⁻¹ := by
    rw [wrapAngle_of_neg (by norm_num [glm.two_pi, glm.pi]) (by norm_num), glm.two_pi]
    ring
  have h6 : ¬ ((3 / 2 : ℚ) ≤ 1 + 2 / 5) := by norm_num
  have h7 : (13 / 10 : ℚ) ≤ 1 + 2 / 5 := by norm_num
  have h8 : glm.clamp (1 + 1000 * 10⁻¹) (glm.pi * 100⁻¹) (glm.pi * (99 / 100)) =
      99 / 100 * glm.pi := by
    norm_num [glm.clamp, glm.pi]
  have h9 : glm.half_pi * (99 / 100) = 99 / 100 * (glm.pi / 2) := by
    unfold glm.half_pi; ring
  have h10 : ¬ (2 * glm.pi - 10⁻¹ = 0) := by norm_num [glm.pi]
  have h11 : glm.wrapAngle (2 * glm.pi - 10⁻¹ + glm.half_pi / 90) =
      2 * glm.pi - 10⁻¹ + glm.half_pi / 90 :=
    glm.wrapAngle_of_mem (by norm_num [glm.half_pi, glm.pi])
      (by norm_num [glm.half_pi, glm.two_pi, glm.pi])
  simp [update, searchCamera, sampleWorld, sampleCamera, samplePlayer, sampleBattery,
    toggleMouse, dragApp, dragOutcome, sampleApp, findPlayer, World.controllerAt, World.get,
    navigate, orient, World.modify, Entity.mapRotation, Entity.mapCamera, Entity.mapPosition,
    mouseLook, zoom, World.deref, translate, arrows, arrowLeft, leftYaw, collect, scan,
    proximity, distance, Entity.raduis, World.markForRemoval, World.deleteMarkedEntities,
    sampleNumerics, bind, Except.bind, pure, Except.pure, Mat4.mulVec, Vec4.scale, Vec4.add,
    Vec4.xyz, Vec3.add, Vec3.mul, sampleController, h1, h2, h3, h4, h5, h6, h7, h8, h10, h11]
  exact ⟨by norm_num, h9⟩

theorem pitch_clamped_witness :
    update sampleNumerics dragApp ⟨false⟩ sampleWorld (1 / 60) = .ok dragOutcome ∧
      ∀ e ∈ dragOutcome.world.entities, e.id = 0 →
        -(99 / 100 * (glm.pi / 2)) ≤ e.localTransform.rotation.x ∧
          e.localTransform.rotation.x ≤ 99 / 100 * (glm.pi / 2) :=
  ⟨update_sampleWorld_drag,
   pitch_clamped sampleNumerics dragApp ⟨false⟩ sampleWorld (1 / 60) 0 0 dragOutcome
     sampleWorld_search update_sampleWorld_drag⟩

theorem yaw_wrapped_witness :
    update sampleNumerics dragApp ⟨false⟩ sampleWorld (1 / 60) = .ok dragOutcome ∧
      ∃ ctl, sampleWorld.controllerAt 0 = .ok ctl ∧
        (∀ (r : fp.Rounding) (yaw : ℚ), 0 ≤ yawPath r dragApp ctl yaw) ∧
        ∀ e ∈ dragOutcome.world.entities, e.id = 0 →
          ∃ x ∈ sampleWorld.entities, x.id = 0 ∧
            e.localTransform.rotation.y =
              yawPath fp.exact dragApp ctl x.localTransform.rotation.y ∧
            0 ≤ e.localTransform.rotation.y ∧ e.localTransform.rotation.y < 2 * glm.pi ∧
            ∃ n : ℤ, e.localTransform.rotation.y =
              requestedYaw dragApp ctl x.localTransform.rotation.y + n * (2 * glm.pi) :=
  ⟨update_sampleWorld_drag,
   yaw_wrapped sampleNumerics dragApp ⟨false⟩ sampleWorld (1 / 60) 0 0 dragOutcome
     sampleWorld_search update_sampleWorld_drag⟩

theorem fov_clamped_witness :
    update sampleNumerics dragApp ⟨false⟩ sampleWorld (1 / 60) = .ok dragOutcome ∧
      ∃ ctl, sampleWorld.controllerAt 0 = .ok ctl ∧
        ∀ e ∈ dragOutcome.world.entities, e.id = 0 →
          ∃ x ∈ sampleWorld.entities, x.id = 0 ∧ ∃ old new, x.camera = some old ∧
            e.camera = some new ∧
            new.fovY = glm.clamp (old.fovY + dragApp.mouse.scrollOffset.y * ctl.fovSensitivity)
              (1 / 100 * glm.pi) (99 / 100 * glm.pi) ∧
            1 / 100 * glm.pi ≤ new.fovY ∧ new.fovY ≤ 99 / 100 * glm.pi :=
  ⟨update_sampleWorld_drag,
   fov_clamped sampleNumerics dragApp ⟨false⟩ sampleWorld (1 / 60) 0 0 dragOutcome
     sampleWorld_distinct sampleWorld_search update_sampleWorld_drag⟩

theorem translate_none (app : Application) (entity : Nat) (deltaTime : ℚ)
    (cs front up right : Vec3) (w : World)
    (hW : app.keyboard Key.W = false) (hS : app.keyboard Key.S = false)
    (hD : app.keyboard Key.D = false) (hA : app.keyboard Key.A = false) :
    translate app entity none deltaTime cs front up right w =
      .ok { entities := w.entities.map
              (translateEntity app entity entity deltaTime cs front up right),
            markedForRemoval := w.markedForRemoval } := by
  unfold translate translateEntity
  rw [hW, hS, hD, hA]
  cases app.keyboard Key.Q <;> cases app.keyboard Key.E <;>
    simp [bind, Except.bind, pure, Except.pure, World.modify, List.map_map, Function.comp_def]

theorem navigateEntity_other (app : Application) (controller : FreeCameraControllerComponent)
    (camera p : Nat) (deltaTime : ℚ) (cs front up right : Vec3) (x : Entity)
    (hx : x.id ≠ camera)
    (hW : app.keyboard Key.W = false) (hS : app.keyboard Key.S = false)
    (hD : app.keyboard Key.D = false) (hA : app.keyboard Key.A = false) :
    arrowsEntity app camera front (translateEntity app camera p deltaTime cs front up right
      (orientEntity app controller camera camera x)) = x := by
  have h1 : orientEntity app controller camera camera x = x := by
    unfold orientEntity
    simp only [hx, if_false]
  have h2 : translateEntity app camera p deltaTime cs front up right x = x := by
    unfold translateEntity
    rw [hW, hS, hD, hA]
    simp only [hx, if_false, Bool.false_eq_true, ite_self]
  have h3 : arrowsEntity app camera front x = x := by
    unfold arrowsEntity
    simp only [hx, if_false, ite_self]
  rw [h1, h2, h3]

/-- Without a player, and with none of W, S, D, A held, `update` returns,
requests no removal and leaves every entity other than the camera entity as it
was. -/
theorem update_without_player (lib : Numerics) (app : Application)
    (self : FreeCameraControllerSystem) (world : World) (deltaTime : ℚ) (camera controller : Nat)
    (hd : world.Distinct) (hm : world.markedForRemoval = [])
    (hs : searchCamera world.entities (none, none) = (some camera, some controller))
    (hp : findPlayer world.entities = none)
    (hW : app.keyboard Key.W = false) (hS : app.keyboard Key.S = false)
    (hD : app.keyboard Key.D = false) (hA : app.keyboard Key.A = false) :
    ∃ out, update lib app self world deltaTime = .ok out ∧
      out.effects = (toggleMouse app self.mouse_locked).2 ++ [Effect.deleteMarkedEntities] ∧
      ∀ x ∈ world.entities, x.id ≠ camera → x ∈ out.world.entities := by
  rcases searchCamera_found _ _ _ _ hs with ⟨-, h⟩ | ⟨e, he, rfl, rfl, -, hctl⟩
  · simp at h
  · obtain ⟨ctl, hctl'⟩ := Option.isSome_iff_exists.mp hctl
    have hget := World.get_of_mem hd he
    have hgeto : (orient app ctl e.id e.id world).get e.id =
        some (orientEntity app ctl e.id e.id e) := by
      rw [orient_eq, World.get_map _ _ _ (fun x => (orientEntity_fields _ _ _ _ x).1)]
      show Option.map _ (world.get e.id) = _
      rw [hget]; rfl
    have hnav : ∃ front up right, navigate lib app ctl e.id e.id none deltaTime world =
        .ok { entities := world.entities.map (fun x => arrowsEntity app e.id front
                (translateEntity app e.id e.id deltaTime (currentSensitivity app ctl)
                  front up right (orientEntity app ctl e.id e.id x))),
              markedForRemoval := world.markedForRemoval } := by
      refine ⟨((lib.toMat4 (orientEntity app ctl e.id e.id e).localTransform).mulVec
          ⟨0, 0, -1, 0⟩).xyz,
        ((lib.toMat4 (orientEntity app ctl e.id e.id e).localTransform).mulVec
          ⟨0, 1, 0, 0⟩).xyz,
        ((lib.toMat4 (orientEntity app ctl e.id e.id e).localTransform).mulVec
          ⟨1, 0, 0, 0⟩).xyz, ?_⟩
      unfold navigate
      rw [orient_eq] at hgeto
      simp only [World.deref, orient_eq, hgeto, bind, Except.bind,
        translate_none _ _ _ _ _ _ _ _ hW hS hD hA, pure, Except.pure, arrows_eq,
        List.map_map, Function.comp_def]
    obtain ⟨front, up, right, hnav⟩ := hnav
    obtain ⟨w1, hw1, hnav⟩ : ∃ w1 : World,
        w1.entities = world.entities.map (fun x => arrowsEntity app e.id front
          (translateEntity app e.id e.id deltaTime (currentSensitivity app ctl)
            front up right (orientEntity app ctl e.id e.id x))) ∧
        navigate lib app ctl e.id e.id none deltaTime world = .ok w1 := ⟨_, rfl, hnav⟩
    have hm1 : w1.markedForRemoval = [] := (navigate_ids hnav).2.trans hm
    have hc : world.controllerAt e.id = .ok ctl := by
      simp [World.controllerAt, hget, hctl']
    have hcol : collect lib (findPlayer world.entities) w1 = .ok (w1, []) := by
      rw [hp]; rfl
    have hupd := (update_of_search lib app self world deltaTime e.id e.id hs _).mpr
      ⟨ctl, w1, w1, [], hc, hp ▸ hnav, hcol, rfl⟩
    refine ⟨_, hupd, by simp, ?_⟩
    intro x hx hxid
    simp only [World.deleteMarkedEntities, hm1, List.not_mem_nil, not_false_eq_true,
      decide_True, List.filter_true, hw1]
    exact List.mem_map.mpr ⟨x, hx,
      navigateEntity_other app ctl e.id e.id deltaTime _ _ _ _ x hxid hW hS hD hA⟩

/-- The `double` quotient `glm::half_pi<float>() / 90.0`. -/
theorem double_increment :
    fp.ieee.double (glm.half_pi / 90) = 5030569208097451 / 288230376151711744 := by
  have h := fp.roundTo_eq 53 (glm.half_pi / 90) (-6) 5030569208097451
    (by rw [abs_of_pos (by norm_num [glm.half_pi, glm.pi])]; norm_num [glm.half_pi, glm.pi])
    (by rw [abs_of_pos (by norm_num [glm.half_pi, glm.pi])]; norm_num [glm.half_pi, glm.pi])
    (by norm_num [glm.half_pi, glm.pi]) (by norm_num [glm.half_pi, glm.pi])
  rw [show fp.ieee.double = fp.roundTo 53 from rfl, h]
  norm_num

/-- The `float` that line 132 stores: the `double` quotient converted. -/
theorem single_increment :
    fp.ieee.single (5030569208097451 / 288230376151711744) = 9370165 / 536870912 := by
  have h := fp.roundTo_eq 24 (5030569208097451 / 288230376151711744) (-6) 9370165
    (by rw [abs_of_pos (by norm_num)]; norm_num)
    (by rw [abs_of_pos (by norm_num)]; norm_num) (by norm_num) (by norm_num)
  rw [show fp.ieee.single = fp.roundTo 24 from rfl, h]
  norm_num

theorem wrapAngleR_ieee_zero : glm.wrapAngleR fp.ieee 0 = 0 := by
  have hz : fp.ieee.single 0 = 0 := fp.roundTo_zero 24
  rw [glm.wrapAngleR_eval fp.ieee 0 0 0 0 0 (by rw [zero_div, hz]) (by norm_num)
    (by rw [Int.cast_zero, mul_zero, hz]) (by rw [sub_zero, hz]), abs_zero]

/-- The wrap of line 134 leaves the increment as it is. -/
theorem wrapAngleR_ieee_increment :
    glm.wrapAngleR fp.ieee (9370165 / 536870912) = 9370165 / 536870912 := by
  have hz : fp.ieee.single 0 = 0 := fp.roundTo_zero 24
  have hq : fp.ieee.single (9370165 / 536870912 / glm.two_pi) = 372827 / 134217728 := by
    have h := fp.roundTo_eq 24 (9370165 / 536870912 / glm.two_pi) (-9) 11930464
      (by rw [abs_of_pos (by norm_num [glm.two_pi, glm.pi])]; norm_num [glm.two_pi, glm.pi])
      (by rw [abs_of_pos (by norm_num [glm.two_pi, glm.pi])]; norm_num [glm.two_pi, glm.pi])
      (by norm_num [glm.two_pi, glm.pi]) (by norm_num [glm.two_pi, glm.pi])
    rw [show fp.ieee.single = fp.roundTo 24 from rfl, h]
    norm_num
  have hs : fp.ieee.single (9370165 / 536870912 - 0) = 9370165 / 536870912 := by
    have h := fp.roundTo_eq 24 (9370165 / 536870912 - 0) (-6) 9370165
      (by rw [abs_of_pos (by norm_num)]; norm_num)
      (by rw [abs_of_pos (by norm_num)]; norm_num) (by norm_num) (by norm_num)
    rw [show fp.ieee.single = fp.roundTo 24 from rfl, h]
    norm_num
  rw [glm.wrapAngleR_eval fp.ieee _ _ 0 0 _ hq
    (by rw [Int.floor_eq_iff]; constructor <;> norm_num)
    (by rw [Int.cast_zero, mul_zero, hz]) hs]
  exact abs_of_pos (by norm_num)

/-- Line 140 on the `float` increment: the `double` difference is the rounding
error of line 132, about -6.2e-10, and is stored as a `float`. -/
theorem single_decrement :
    fp.ieee.single (fp.ieee.double (9370165 / 536870912 -
      5030569208097451 / 288230376151711744)) = -11184811 / 18014398509481984 := by
  have hd : fp.ieee.double (9370165 / 536870912 - 5030569208097451 / 288230376151711744) =
      -178956971 / 288230376151711744 := by
    have h := fp.roundTo_eq 53
      (9370165 / 536870912 - 5030569208097451 / 288230376151711744) (-31) (-6004799514345472)
      (by rw [abs_of_neg (by norm_num)]; norm_num)
      (by rw [abs_of_neg (by norm_num)]; norm_num) (by norm_num) (by norm_num)
    rw [show fp.ieee.double = fp.roundTo 53 from rfl, h]
    norm_num
  have h := fp.roundTo_eq 24 (-178956971 / 288230376151711744) (-31) (-11184811)
    (by rw [abs_of_neg (by norm_num)]; norm_num)
    (by rw [abs_of_neg (by norm_num)]; norm_num) (by norm_num) (by norm_num)
  rw [hd, show fp.ieee.single = fp.roundTo 24 from rfl, h]
  norm_num

/-- The wrap of line 141 on that `float`: the quotient by 2*pi has floor -1,
and the sum with 2*pi rounds to 2*pi. -/
theorem wrapAngleR_ieee_decrement :
    glm.wrapAngleR fp.ieee (-11184811 / 18014398509481984) = 2 * glm.pi := by
  have hq : fp.ieee.single (-11184811 / 18014398509481984 / glm.two_pi) =
      -14240943 / 144115188075855872 := by
    have h := fp.roundTo_eq 24 (-11184811 / 18014398509481984 / glm.two_pi) (-34) (-14240943)
      (by rw [abs_of_neg (by norm_num [glm.two_pi, glm.pi])]; norm_num [glm.two_pi, glm.pi])
      (by rw [abs_of_neg (by norm_num [glm.two_pi, glm.pi])]; norm_num [glm.two_pi, glm.pi])
      (by norm_num [glm.two_pi, glm.pi]) (by norm_num [glm.two_pi, glm.pi])
    rw [show fp.ieee.single = fp.roundTo 24 from rfl, h]
    norm_num
  have hp : fp.ieee.single (glm.two_pi * ((-1 : ℤ) : ℚ)) = -(2 * glm.pi) := by
    have h := fp.roundTo_eq 24 (glm.two_pi * ((-1 : ℤ) : ℚ)) 2 (-13176795)
      (by rw [abs_of_neg (by norm_num [glm.two_pi, glm.pi])]; norm_num [glm.two_pi, glm.pi])
      (by rw [abs_of_neg (by norm_num [glm.two_pi, glm.pi])]; norm_num [glm.two_pi, glm.pi])
      (by norm_num [glm.two_pi, glm.pi]) (by norm_num [glm.two_pi, glm.pi])
    rw [show fp.ieee.single = fp.roundTo 24 from rfl, h]
    norm_num [glm.pi]
  have hs : fp.ieee.single (-11184811 / 18014398509481984 - -(2 * glm.pi)) = 2 * glm.pi := by
    have h := fp.roundTo_eq 24 (-11184811 / 18014398509481984 - -(2 * glm.pi)) 2 13176795
      (by rw [abs_of_pos (by norm_num [glm.pi])]; norm_num [glm.pi])
      (by rw [abs_of_pos (by norm_num [glm.pi])]; norm_num [glm.pi])
      (by norm_num [glm.pi]) (by norm_num [glm.pi])
    rw [show fp.ieee.single = fp.roundTo 24 from rfl, h]
    norm_num [glm.pi]
  rw [glm.wrapAngleR_eval fp.ieee _ _ (-1) _ _ hq
    (by rw [Int.floor_eq_iff]; constructor <;> norm_num) hp hs]
  exact abs_of_pos (by norm_num [glm.pi])

/-- One frame of the yaw path in `float` and `double` arithmetic, from yaw 0
with LEFT and RIGHT held. -/
theorem yawPath_ieee_bothArrows : yawPath fp.ieee bothArrowsApp sampleController 0 = 2 * glm.pi := by
  have h1 : (9370165 / 536870912 : ℚ) ≠ 0 := by norm_num
  simp only [yawPath, bothArrowsApp, sampleApp, Bool.false_eq_true, if_false,
    wrapAngleR_ieee_zero, if_true, List.mem_cons, true_or, or_true, decide_True,
    double_increment, single_increment, wrapAngleR_ieee_increment, if_neg h1,
    single_decrement, wrapAngleR_ieee_decrement]

/-- One frame of the yaw path in `float` and `double` arithmetic from a large
yaw with nothing pressed: the rounding error of the product inside `mod` is
larger than 2*pi, and so is the yaw that line 84 stores. -/
theorem yawPath_ieee_large : yawPath fp.ieee idleApp sampleController 1000000000 = 64 := by
  have hq : fp.ieee.single (1000000000 / glm.two_pi) = 159154944 := by
    have h := fp.roundTo_eq 24 (1000000000 / glm.two_pi) 27 9947184
      (by rw [abs_of_pos (by norm_num [glm.two_pi, glm.pi])]; norm_num [glm.two_pi, glm.pi])
      (by rw [abs_of_pos (by norm_num [glm.two_pi, glm.pi])]; norm_num [glm.two_pi, glm.pi])
      (by norm_num [glm.two_pi, glm.pi]) (by norm_num [glm.two_pi, glm.pi])
    rw [show fp.ieee.single = fp.roundTo 24 from rfl, h]
    norm_num
  have hp : fp.ieee.single (glm.two_pi * ((159154944 : ℤ) : ℚ)) = 1000000064 := by
    have h := fp.roundTo_eq 24 (glm.two_pi * ((159154944 : ℤ) : ℚ)) 29 15625001
      (by rw [abs_of_pos (by norm_num [glm.two_pi, glm.pi])]; norm_num [glm.two_pi, glm.pi])
      (by rw [abs_of_pos (by norm_num [glm.two_pi, glm.pi])]; norm_num [glm.two_pi, glm.pi])
      (by norm_num [glm.two_pi, glm.pi]) (by norm_num [glm.two_pi, glm.pi])
    rw [show fp.ieee.single = fp.roundTo 24 from rfl, h]
    norm_num
  have hs : fp.ieee.single (1000000000 - 1000000064) = -64 := by
    have h := fp.roundTo_eq 24 (1000000000 - 1000000064) 6 (-8388608)
      (by rw [abs_of_neg (by norm_num)]; norm_num)
      (by rw [abs_of_neg (by norm_num)]; norm_num) (by norm_num) (by norm_num)
    rw [show fp.ieee.single = fp.roundTo 24 from rfl, h]
    norm_num
  have hw : glm.wrapAngleR fp.ieee 1000000000 = 64 := by
    rw [glm.wrapAngleR_eval fp.ieee _ _ 159154944 _ _ hq
      (by rw [Int.floor_eq_iff]; constructor <;> norm_num) hp hs]
    norm_num
  simp only [yawPath, idleApp, sampleApp, Bool.false_eq_true, if_false, hw, List.not_mem_nil,
    decide_False]

/-- C5, counterexample.  From yaw 0, with the mouse idle and LEFT and RIGHT both
held, the yaw path of `update` in `float` and `double` arithmetic stores
exactly `two_pi<float>()`, which is not below 2*pi.  LEFT stores the `float`
nearest to the `double` quotient `half_pi / 90.0`; RIGHT subtracts the `double`
quotient from it, which leaves the rounding error, about -6.2e-10; and
`wrapAngle` adds 2*pi to that, a sum that rounds to 2*pi. -/
theorem yaw_reaches_two_pi :
    yawPath fp.ieee bothArrowsApp sampleController 0 = 2 * glm.pi ∧
      ¬ (yawPath fp.ieee bothArrowsApp sampleController 0 < 2 * glm.pi) :=
  ⟨yawPath_ieee_bothArrows, by rw [yawPath_ieee_bothArrows]; exact lt_irrefl _⟩

end our
